import Mathlib

/-!
# BallsSim: the physics core of `main.cpp`

A shallow embedding of the classes `Ball` and `BallSys` of `src/main.cpp`.

Modelling conventions.

* The C++ `float` / `double` values are modelled by an arbitrary linearly ordered field `K`
  (exact arithmetic: no rounding, no overflow, no NaN).  Every definition is generic in `K`, so it
  can be evaluated on `ℚ` and reasoned about on `ℝ`.
* One rounding is modelled, because it decides a branch on ordinary inputs: the `float` product
  `radii_sum * radii_sum` in the overlap test of `ballsCollision`, compared with a `double`.
  `collidePairF32` carries it as a parameter and `binary32` is the IEEE 754 rounding.
* The library functions `sqrtf` (inside raymath's `Vector2Length`, and `sqrt` in `terVel`) and
  `sin` are parameters `sqrt sin : K → K`; theorems that depend on them assume `IsSqrt sqrt`.
* raylib input polling (`IsKeyPressed`, `IsKeyDown`, `IsMouseButtonDown`, `GetTime`) is read from
  an explicit `Input` record, one record per frame.
* Drawing calls (`DrawCircle`, `DrawText`) do not touch the simulation state and are omitted.
* The function-local `static int is_enabled` of `changeWind` is a field of the system state.
* The results of raylib's `GetRandomValue` are explicit arguments (`SpawnRandom`), so a theorem
  about `addOnClick` quantifies over every run of the random number generator.
-/

namespace BallsSim

/-! ## raylib / raymath types -/

/-- The raylib `Vector2`. -/
structure Vector2 (K : Type) where
  x : K
  y : K

/-- The 25 raylib colours listed in `allColors` (`addOnClick`), in table order. -/
inductive Color where
  | LIGHTGRAY | GRAY | DARKGRAY | YELLOW | GOLD | ORANGE | PINK | RED | MAROON | GREEN
  | LIME | DARKGREEN | SKYBLUE | BLUE | DARKBLUE | PURPLE | VIOLET | DARKPURPLE | BEIGE
  | BROWN | DARKBROWN | WHITE | BLANK | MAGENTA | RAYWHITE
  deriving DecidableEq, Repr

/-- The keyboard keys polled by the program. -/
inductive KeyboardKey where
  | KEY_ONE | KEY_TWO | KEY_THREE | KEY_FOUR | KEY_FIVE | KEY_SIX | KEY_SEVEN | KEY_EIGHT
  | KEY_NINE | KEY_ZERO | KEY_W | KEY_R | KEY_LEFT_SHIFT
  deriving DecidableEq, Repr

/-- The mouse buttons polled by the program. -/
inductive MouseButton where
  | MOUSE_BUTTON_LEFT | MOUSE_BUTTON_RIGHT
  deriving DecidableEq, Repr

/-- What raylib reports during one frame. -/
structure Input (K : Type) where
  IsKeyPressed : KeyboardKey → Bool
  IsKeyDown : KeyboardKey → Bool
  IsMouseButtonDown : MouseButton → Bool
  GetTime : K

section Defs

variable {K : Type} [LinearOrderedField K]

/-- The contract of `sqrt` on non-negative arguments. -/
def IsSqrt (sqrt : K → K) : Prop :=
  ∀ x : K, 0 ≤ x → 0 ≤ sqrt x ∧ sqrt x * sqrt x = x

/-- raymath `Vector2Add` (also `operator+`). -/
def Vector2Add (v1 v2 : Vector2 K) : Vector2 K :=
  ⟨v1.x + v2.x, v1.y + v2.y⟩

/-- raymath `Vector2Subtract` (also `operator-`). -/
def Vector2Subtract (v1 v2 : Vector2 K) : Vector2 K :=
  ⟨v1.x - v2.x, v1.y - v2.y⟩

/-- raymath `Vector2Scale` (also `operator*` with a scalar). -/
def Vector2Scale (v : Vector2 K) (scale : K) : Vector2 K :=
  ⟨v.x * scale, v.y * scale⟩

/-- raymath `Vector2DotProduct`. -/
def Vector2DotProduct (v1 v2 : Vector2 K) : K :=
  v1.x * v2.x + v1.y * v2.y

/-- raymath `Vector2Length`: `sqrtf(v.x*v.x + v.y*v.y)`. -/
def Vector2Length (sqrt : K → K) (v : Vector2 K) : K :=
  sqrt (v.x * v.x + v.y * v.y)

/-! ## class Ball -/

/-- The data members of `Ball`.  `SphereDC` (always `0.47`, never assigned) is the constant
`Ball.SphereDC`; the private, unused member `drag` is left out. -/
structure Ball (K : Type) where
  pos : Vector2 K
  vel : Vector2 K
  mass : K
  radiusVisual : K
  color : Color
  e : K
  g : K
  realRadius : K
  airDensity : K
  A : K
  planet : Int
  planet_name : String
  windAcc : Vector2 K

/-- Member `double SphereDC = 0.47;`. -/
def Ball.SphereDC : K := 47 / 100

/-- The constructor `Ball::Ball` (with the default member initialisers).  `windAcc` has no
initialiser in the source; its indeterminate start value is the argument `windAcc0`. -/
def Ball.new (Pos Vel : Vector2 K) (mass radius : K) (color : Color) (restitution : K)
    (g : K) (windAcc0 : Vector2 K) : Ball K :=
  let radiusVisual := radius
  let realRadius := radiusVisual / 10000
  { pos := Pos, vel := Vel, mass := mass, radiusVisual := radiusVisual, color := color,
    e := restitution, g := g, realRadius := realRadius, airDensity := 1225 / 1000,
    A := 31415 / 10000 * realRadius * realRadius, planet := 3, planet_name := "Earth",
    windAcc := windAcc0 }

/-- The default value `98.1` of the constructor argument `g`. -/
def Ball.defaultG : K := 981 / 10

/-- The nested struct `Ball::Derivative`. -/
structure Derivative (K : Type) where
  dpos : Vector2 K
  dvel : Vector2 K

/-- Method `Ball::terVel`. -/
def Ball.terVel (sqrt : K → K) (b : Ball K) : K :=
  let top := 2 * b.mass * b.g
  let bottom := b.airDensity * Ball.SphereDC * b.A
  sqrt (top / bottom)

/-- Method `Ball::accel`. -/
def Ball.accel (b : Ball K) (_pos vel windAcc : Vector2 K) : Derivative K :=
  let gravityForce := b.mass * b.g
  let v := vel.y
  let dragForce := 1 / 2 * b.airDensity * Ball.SphereDC * b.A * v * abs v
  let dragForce := dragForce * -1
  let net := gravityForce + dragForce
  let ay := net / b.mass
  ⟨vel, ⟨windAcc.x, ay + windAcc.y⟩⟩

/-- Method `Ball::rk4`. -/
def Ball.rk4 (b : Ball K) (dt : K) (windAcc : Vector2 K) : Ball K :=
  let k1 := b.accel b.pos b.vel windAcc
  let k2 := b.accel
    (Vector2Add b.pos (Vector2Scale k1.dpos (dt * (1 / 2))))
    (Vector2Add b.vel (Vector2Scale k1.dvel (dt * (1 / 2))))
    windAcc
  let k3 := b.accel
    (Vector2Add b.pos (Vector2Scale k2.dpos (dt * (1 / 2))))
    (Vector2Add b.vel (Vector2Scale k2.dvel (dt * (1 / 2))))
    windAcc
  let k4 := b.accel
    (Vector2Add b.pos (Vector2Scale k3.dpos dt))
    (Vector2Add b.vel (Vector2Scale k3.dvel dt))
    windAcc
  { b with
    pos := Vector2Add b.pos (Vector2Scale
      (Vector2Add (Vector2Add (Vector2Add k1.dpos (Vector2Scale k2.dpos 2))
        (Vector2Scale k3.dpos 2)) k4.dpos) (dt / 6))
    vel := Vector2Add b.vel (Vector2Scale
      (Vector2Add (Vector2Add (Vector2Add k1.dvel (Vector2Scale k2.dvel 2))
        (Vector2Scale k3.dvel 2)) k4.dvel) (dt / 6)) }

/-- The floor / ceiling part of `Ball::CollisionHandling` (source lines 116-142). -/
def Ball.collideVertical (b : Ball K) (halfHeight : K) : Ball K :=
  let stopSpeed : K := 50
  if b.pos.y + b.radiusVisual > halfHeight then
    let b1 := { b with pos := { b.pos with y := halfHeight - b.radiusVisual } }
    if abs b1.vel.y < stopSpeed then
      { b1 with vel := { b1.vel with y := 0 } }
    else
      { b1 with vel := { b1.vel with y := b1.vel.y * -b1.e } }
  else if b.pos.y - b.radiusVisual < -halfHeight then
    let b1 := { b with pos := { b.pos with y := -halfHeight + b.radiusVisual } }
    if abs b1.vel.y < stopSpeed then
      { b1 with vel := { b1.vel with y := 0 } }
    else
      { b1 with vel := { b1.vel with y := b1.vel.y * -b1.e } }
  else
    b

/-- The right wall / left wall part of `Ball::CollisionHandling` (source lines 146-157). -/
def Ball.collideHorizontal (b : Ball K) (halfWidth : K) : Ball K :=
  if b.pos.x + b.radiusVisual > halfWidth then
    { b with pos := { b.pos with x := halfWidth - b.radiusVisual },
             vel := { b.vel with x := b.vel.x * -b.e } }
  else if b.pos.x - b.radiusVisual < -halfWidth then
    { b with pos := { b.pos with x := -halfWidth + b.radiusVisual },
             vel := { b.vel with x := b.vel.x * -b.e } }
  else
    b

/-- Method `Ball::CollisionHandling`: the vertical block, then the horizontal block.  The local
`friction` is never read. -/
def Ball.CollisionHandling (b : Ball K) (halfHeight halfWidth : K) : Ball K :=
  (b.collideVertical halfHeight).collideHorizontal halfWidth

/-- Method `Ball::draw`: one `rk4` step with `dt = 0.07`, then `CollisionHandling(540, 960)`. -/
def Ball.draw (b : Ball K) : Ball K :=
  let dt : K := 7 / 100
  (b.rk4 dt b.windAcc).CollisionHandling 540 960

/-! ## class BallSys -/

/-- The data members of `BallSys`, plus `is_enabled`, the `static int` of `changeWind`. -/
structure BallSys (K : Type) where
  balls : List (Ball K)
  current_planet : Int
  current_planet_name : String
  current_g : K
  current_airDensity : K
  wind : Vector2 K
  is_enabled : Int

/-- The constructor `BallSys::BallSys`.  `current_g` and `current_airDensity` have no
initialiser in the source; their indeterminate start values are the arguments `g0`, `rho0`. -/
def BallSys.new (initialBalls : List (Ball K)) (g0 rho0 : K) : BallSys K :=
  { balls := initialBalls, current_planet := 3, current_planet_name := "Earth",
    current_g := g0, current_airDensity := rho0, wind := ⟨-10, 5⟩, is_enabled := 0 }

/-- The unit normal computed at source lines 273-286 and 339-352: `distanceVec / dist` when
`dist > 0.001`, else the fallback `(1, 0)`. -/
def normalOf (distanceVec : Vector2 K) (dist : K) : Vector2 K :=
  if dist > 1 / 1000 then
    ⟨distanceVec.x / dist, distanceVec.y / dist⟩
  else
    ⟨1, 0⟩

/-- Local `distanceVec` of the loop body of `ballsCollision`. -/
def pairDistanceVec (bi bj : Ball K) : Vector2 K :=
  Vector2Subtract bj.pos bi.pos

/-- Local `dist` of the loop body of `ballsCollision`. -/
def pairDist (sqrt : K → K) (bi bj : Ball K) : K :=
  Vector2Length sqrt (pairDistanceVec bi bj)

/-- Local `normal` of the loop body of `ballsCollision`. -/
def pairNormal (sqrt : K → K) (bi bj : Ball K) : Vector2 K :=
  normalOf (pairDistanceVec bi bj) (pairDist sqrt bi bj)

/-- Local `radii_sum` of the loop body of `ballsCollision`. -/
def pairRadiiSum (bi bj : Ball K) : K :=
  bi.radiusVisual + bj.radiusVisual

/-- Local `overlap` of the loop body of `ballsCollision`. -/
def pairOverlap (sqrt : K → K) (bi bj : Ball K) : K :=
  (pairRadiiSum bi bj - pairDist sqrt bi bj) / 2

/-- Local `speed_normal` of the loop body of `ballsCollision`. -/
def pairSpeedNormal (sqrt : K → K) (bi bj : Ball K) : K :=
  Vector2DotProduct (Vector2Subtract bj.vel bi.vel) (pairNormal sqrt bi bj)

/-- Local `average_e` of the loop body of `ballsCollision`. -/
def pairAverageE (bi bj : Ball K) : K :=
  (bi.e + bj.e) / 2

/-- Local `impulseScalar` of the loop body of `ballsCollision` (source lines 306-308). -/
def pairImpulseScalar (sqrt : K → K) (bi bj : Ball K) : K :=
  let top_fraction := -(1 + pairAverageE bi bj) * pairSpeedNormal sqrt bi bj
  let bottom_fraction := 1 / bi.mass + 1 / bj.mass
  top_fraction / bottom_fraction

/-- The body of the inner loop of `BallSys::ballsCollision` (source lines 269-319), as a
function of the current `balls[i]` and `balls[j]`; returns their new values.  The overlap test is
compared exactly here; `collidePairF32` is the same body with the binary32 rounding of the
`float` product `radii_sum * radii_sum`, which matters for exactly touching pairs only. -/
def collidePair (sqrt : K → K) (bi bj : Ball K) : Ball K × Ball K :=
  let dist := pairDist sqrt bi bj
  let normal := pairNormal sqrt bi bj
  let radii_sum := pairRadiiSum bi bj
  let overlap := pairOverlap sqrt bi bj
  let speed_normal := pairSpeedNormal sqrt bi bj
  if dist * dist < radii_sum * radii_sum then
    let bi1 := { bi with pos := Vector2Subtract bi.pos (Vector2Scale normal overlap) }
    let bj1 := { bj with pos := Vector2Add bj.pos (Vector2Scale normal overlap) }
    if speed_normal > 0 then
      (bi1, bj1)
    else
      let impulseScalar := pairImpulseScalar sqrt bi bj
      let impulseVector := Vector2Scale normal impulseScalar
      ({ bi1 with vel := Vector2Subtract bi1.vel (Vector2Scale impulseVector (1 / bi1.mass)) },
       { bj1 with vel := Vector2Add bj1.vel (Vector2Scale impulseVector (1 / bj1.mass)) })
  else
    (bi, bj)

/-- One iteration of the inner loop: resolve the pair at indices `i`, `j` in place. -/
def collideAt (sqrt : K → K) (i j : Nat) (balls : List (Ball K)) : List (Ball K) :=
  match balls[i]?, balls[j]? with
  | some bi, some bj =>
    let r := collidePair sqrt bi bj
    (balls.set i r.1).set j r.2
  | _, _ => balls

/-- Method `BallSys::ballsCollision`: `for i in [0, n)`, `for j in [i+1, n)`, one pass. -/
def BallSys.ballsCollision (sqrt : K → K) (s : BallSys K) : BallSys K :=
  let n := s.balls.length
  let balls := (List.range n).foldl
    (fun balls i => (List.range' (i + 1) (n - (i + 1))).foldl
      (fun balls j => collideAt sqrt i j balls) balls)
    s.balls
  { s with balls := balls }

/-- The body of the loop of `BallSys::attractionPoint` (source lines 335-359).  The local
`speed_normal` is computed there but never read. -/
def attractBall (sqrt : K → K) (inp : Input K) (attPoint_pos : Vector2 K) (b : Ball K) :
    Ball K :=
  let distanceVec := Vector2Subtract b.pos attPoint_pos
  let dist := Vector2Length sqrt distanceVec
  let normal := normalOf distanceVec dist
  let direction : K := if inp.IsKeyDown KeyboardKey.KEY_LEFT_SHIFT then -1 else 1
  let impulseVector := Vector2Scale normal (direction * 1000)
  { b with vel := Vector2Subtract b.vel (Vector2Scale impulseVector (1 / b.mass)) }

/-- Method `BallSys::attractionPoint`. -/
def BallSys.attractionPoint (sqrt : K → K) (inp : Input K) (attPoint_pos : Vector2 K)
    (s : BallSys K) : BallSys K :=
  if inp.IsMouseButtonDown MouseButton.MOUSE_BUTTON_RIGHT then
    { s with balls := s.balls.map (attractBall sqrt inp attPoint_pos) }
  else
    s

/-- The ten `if (IsKeyPressed(KEY_...)) current_planet = ...;` statements (lines 370-379). -/
def pollPlanet (inp : Input K) (current_planet : Int) : Int :=
  let p := if inp.IsKeyPressed KeyboardKey.KEY_ONE then 1 else current_planet
  let p := if inp.IsKeyPressed KeyboardKey.KEY_TWO then 2 else p
  let p := if inp.IsKeyPressed KeyboardKey.KEY_THREE then 3 else p
  let p := if inp.IsKeyPressed KeyboardKey.KEY_FOUR then 4 else p
  let p := if inp.IsKeyPressed KeyboardKey.KEY_FIVE then 5 else p
  let p := if inp.IsKeyPressed KeyboardKey.KEY_SIX then 6 else p
  let p := if inp.IsKeyPressed KeyboardKey.KEY_SEVEN then 7 else p
  let p := if inp.IsKeyPressed KeyboardKey.KEY_EIGHT then 8 else p
  let p := if inp.IsKeyPressed KeyboardKey.KEY_NINE then 9 else p
  let p := if inp.IsKeyPressed KeyboardKey.KEY_ZERO then 10 else p
  p

/-- The `switch (current_planet)` of `changeEnviroment` (lines 381-448):
`(current_g, current_airDensity, current_planet_name)`. -/
def planetSwitch (current_planet : Int) : K × K × String :=
  if current_planet = 1 then (38, 0, "Mercury")
  else if current_planet = 2 then (90, 65, "Venus")
  else if current_planet = 3 then (981 / 10, 1225 / 1000, "Earth")
  else if current_planet = 4 then (37, 2 / 100, "Mars")
  else if current_planet = 5 then (2408 / 10, 16 / 100, "Jupiter")
  else if current_planet = 6 then (1044 / 10, 19 / 100, "Saturn")
  else if current_planet = 7 then (873 / 10, 42 / 100, "Uranus")
  else if current_planet = 8 then (1118 / 10, 45 / 100, "Neptune")
  else if current_planet = 9 then (1625 / 100, 0, "Moon")
  else if current_planet = 10 then (2740, 1 / 10000, "Sun")
  else (981 / 10, 1225 / 1000, "Earth")

/-- Method `BallSys::changeEnviroment`. -/
def BallSys.changeEnviroment (inp : Input K) (s : BallSys K) : BallSys K :=
  let current_planet := pollPlanet inp s.current_planet
  let r : K × K × String := planetSwitch current_planet
  { s with
    current_planet := current_planet
    current_g := r.1
    current_airDensity := r.2.1
    current_planet_name := r.2.2
    balls := s.balls.map (fun b => { b with g := r.1, airDensity := r.2.1 }) }

/-- Method `BallSys::changeWind`. -/
def BallSys.changeWind (sin : K → K) (inp : Input K) (s : BallSys K) : BallSys K :=
  let is_enabled := if inp.IsKeyPressed KeyboardKey.KEY_W then s.is_enabled + 1 else s.is_enabled
  let is_enabled := if is_enabled > 2 then 0 else is_enabled
  if is_enabled = 0 then
    { s with is_enabled := is_enabled, wind := ⟨0, 0⟩ }
  else if is_enabled = 1 then
    { s with is_enabled := is_enabled, wind := ⟨15, 3⟩ }
  else if is_enabled = 2 then
    let t := inp.GetTime
    { s with is_enabled := is_enabled, wind := ⟨sin (t * (1 / 2)) * 15, 0⟩ }
  else
    { s with is_enabled := is_enabled }

/-- The body of the `for (auto& b : balls)` loop of `BallSys::draw` (source lines 529-532). -/
def BallSys.drawBall (s : BallSys K) (b : Ball K) : Ball K :=
  let b1 := { b with g := s.current_g }
  let b2 := { b1 with airDensity := s.current_airDensity }
  let b3 := { b2 with windAcc := s.wind }
  b3.draw

/-- Method `BallSys::draw`: `changeEnviroment`, (`drawUI`,) `ballsCollision`, `changeWind`, then the
loop over the balls. -/
def BallSys.draw (sqrt sin : K → K) (inp : Input K) (s : BallSys K) : BallSys K :=
  let s1 := s.changeEnviroment inp
  let s2 := s1.ballsCollision sqrt
  let s3 := s2.changeWind sin inp
  { s3 with balls := s3.balls.map s3.drawBall }

/-! ## Scenarios of the specification (section 8), as concrete inputs -/

/-- A frame in which no key and no mouse button is active, at time `0`. -/
def noInput : Input K :=
  ⟨fun _ => false, fun _ => false, fun _ => false, 0⟩

/-- A frame in which only the right mouse button is held (attract, not inverted). -/
def attractInput : Input K :=
  ⟨fun _ => false, fun _ => false,
   fun m => decide (m = MouseButton.MOUSE_BUTTON_RIGHT), 0⟩

/-- Scenario S3: `pos=(0,535), v=(0,40), r=10, e=0.5`; the mass, left open there, is `5`. -/
def s3Ball : Ball K :=
  Ball.new ⟨0, 535⟩ ⟨0, 40⟩ 5 10 Color.ORANGE (1 / 2) Ball.defaultG ⟨0, 0⟩

/-- Scenario S3: a freshly constructed system that holds only `s3Ball`. -/
def s3World : BallSys K :=
  BallSys.new [s3Ball] 0 0

/-- Scenario S4: `pos=(0,0), v=(0,0), m=10`. -/
def s4Ball : Ball K :=
  Ball.new ⟨0, 0⟩ ⟨0, 0⟩ 10 10 Color.ORANGE (8 / 10) Ball.defaultG ⟨0, 0⟩

/-- Scenario S4: the pointer position `(-100, 0)`. -/
def s4Pointer : Vector2 K :=
  ⟨-100, 0⟩

/-- Scenario S2, at the tick where the discs overlap: ball A, `v=(+50,0), m=1, r=10, e=1`,
centre at `(-9, 0)`. -/
def s2BallA : Ball K :=
  Ball.new ⟨-9, 0⟩ ⟨50, 0⟩ 1 10 Color.RED 1 Ball.defaultG ⟨0, 0⟩

/-- Scenario S2: ball B, `v=(-50,0), m=1, r=10, e=1`, centre at `(9, 0)`. -/
def s2BallB : Ball K :=
  Ball.new ⟨9, 0⟩ ⟨-50, 0⟩ 1 10 Color.BLUE 1 Ball.defaultG ⟨0, 0⟩

/-- An overlapping, approaching, equal-mass pair with restitution `1/2`: the left ball moves
right at speed `10`. -/
def halfBallA : Ball K :=
  Ball.new ⟨0, 0⟩ ⟨10, 0⟩ 1 10 Color.RED (1 / 2) Ball.defaultG ⟨0, 0⟩

/-- The right ball of that pair, at rest, centre at `(10, 0)`. -/
def halfBallB : Ball K :=
  Ball.new ⟨10, 0⟩ ⟨0, 0⟩ 1 10 Color.BLUE (1 / 2) Ball.defaultG ⟨0, 0⟩

/-- An overlapping, separating pair: the left ball moves left. -/
def sepBallA : Ball K :=
  Ball.new ⟨0, 0⟩ ⟨-10, 0⟩ 1 10 Color.RED (1 / 2) Ball.defaultG ⟨0, 0⟩

/-- The right ball of that pair moves right, centre at `(10, 0)`. -/
def sepBallB : Ball K :=
  Ball.new ⟨10, 0⟩ ⟨10, 0⟩ 2 10 Color.BLUE (1 / 2) Ball.defaultG ⟨0, 0⟩

/-- The tangent direction of a normal `n`: `n` turned by a quarter turn. -/
def tangentOf (n : Vector2 K) : Vector2 K :=
  ⟨-n.y, n.x⟩

/-- A ball that reaches the floor at vertical speed `60`: `pos=(0,535), r=10, e=0.5`. -/
def bounceBall : Ball K :=
  Ball.new ⟨0, 535⟩ ⟨0, 60⟩ 5 10 Color.GREEN (1 / 2) Ball.defaultG ⟨0, 0⟩

/-- Scenario S1: `pos=(0,-500), v=(0,0), m=5, r=10, e=0.8`, preset Earth. -/
def s1Ball : Ball K :=
  Ball.new ⟨0, -500⟩ ⟨0, 0⟩ 5 10 Color.ORANGE (8 / 10) Ball.defaultG ⟨0, 0⟩

/-- The ball of scenario S1 falling at its own terminal velocity. -/
def s1BallTerminal (sqrt : K → K) : Ball K :=
  { (s1Ball : Ball K) with vel := ⟨0, Ball.terVel sqrt s1Ball⟩ }

/-- The ball of scenario S3 as `BallSys::draw` hands it to `Ball::draw` in the first frame:
Earth values `g = 98.1`, `airDensity = 1.225`, and the wind of mode `0`. -/
def s3BallEarth : Ball K :=
  { (s3Ball : Ball K) with g := 981 / 10, airDensity := 1225 / 1000, windAcc := ⟨0, 0⟩ }

/-! ## The preset table of the specification (section 4.3) -/

/-- The rows `(id, g, rho)` of the preset table, as the specification prints them. -/
def specPresetTable : List (Int × K × K) :=
  [(1, 38, 0), (2, 90, 65), (3, 98.1, 1.225), (4, 37, 0.02), (5, 240.8, 0.16),
   (6, 104.4, 0.19), (7, 87.3, 0.42), (8, 111.8, 0.45), (9, 16.25, 0), (10, 2740, 0.0001)]

/-- The key of each preset id: keys `1..9, 0` map to ids `1..10`. -/
def specPresetKeys : List (KeyboardKey × Int) :=
  [(KeyboardKey.KEY_ONE, 1), (KeyboardKey.KEY_TWO, 2), (KeyboardKey.KEY_THREE, 3),
   (KeyboardKey.KEY_FOUR, 4), (KeyboardKey.KEY_FIVE, 5), (KeyboardKey.KEY_SIX, 6),
   (KeyboardKey.KEY_SEVEN, 7), (KeyboardKey.KEY_EIGHT, 8), (KeyboardKey.KEY_NINE, 9),
   (KeyboardKey.KEY_ZERO, 10)]

/-- A frame in which only the key `0` is pressed. -/
def zeroKeyInput : Input K :=
  ⟨fun k => decide (k = KeyboardKey.KEY_ZERO), fun _ => false, fun _ => false, 0⟩

/-! ## Spawning (`randf`, `addOnClick`) -/

/-- Method `BallSys::randf`, as a function of the outcome `v` of its one call
`GetRandomValue(0, 10000)`: `min + (float)v / 10000.0f * (max - min)`. -/
def randf (min max : K) (v : Nat) : K :=
  min + (v : K) / 10000 * (max - min)

/-- The local array `Color allColors[25]` of `addOnClick`, in source order. -/
def allColors : List Color :=
  [Color.LIGHTGRAY, Color.GRAY, Color.DARKGRAY, Color.YELLOW, Color.GOLD, Color.ORANGE,
   Color.PINK, Color.RED, Color.MAROON, Color.GREEN, Color.LIME, Color.DARKGREEN,
   Color.SKYBLUE, Color.BLUE, Color.DARKBLUE, Color.PURPLE, Color.VIOLET, Color.DARKPURPLE,
   Color.BEIGE, Color.BROWN, Color.DARKBROWN, Color.WHITE, Color.BLANK, Color.MAGENTA,
   Color.RAYWHITE]

/-- The outcomes of the six `GetRandomValue` calls made by one `addOnClick`: five calls
`GetRandomValue(0, 10000)` inside `randf` (two velocity components, mass, radius, restitution)
and the call `GetRandomValue(0, 25)` that indexes `allColors`. -/
structure SpawnRandom where
  vel_x : Nat
  vel_y : Nat
  m : Nat
  r : Nat
  colorIndex : Nat
  e : Nat

/-- Method `BallSys::addOnClick`.  The array read `allColors[colorIndex]` is `allColors[i]` for
an index inside the table; for an index past its end the source reads whatever lies behind the
array, which is the argument `oob`.  `windAcc0` is the indeterminate start value of the new
ball's `windAcc` (see `Ball.new`). -/
def BallSys.addOnClick (rnd : SpawnRandom) (oob : Color) (windAcc0 : Vector2 K)
    (position : Vector2 K) (s : BallSys K) : BallSys K :=
  let random_vel : Vector2 K := ⟨randf (-100) 100 rnd.vel_x, randf (-100) 100 rnd.vel_y⟩
  let random_m : K := randf 1 75 rnd.m
  let random_r : K := randf 1 75 rnd.r
  let color := allColors.getD rnd.colorIndex oob
  let ball := Ball.new position random_vel random_m random_r color (randf (8 / 10) 1 rnd.e)
    Ball.defaultG windAcc0
  { s with balls := s.balls ++ [ball] }

/-! ## Notions of the specification used to state the later properties -/

/-- The constants of a body that a tick must not change: `(mass, radiusVisual, e)`. -/
def bodyConstants (b : Ball K) : K × K × K :=
  (b.mass, b.radiusVisual, b.e)

/-- Total linear momentum of a list of balls: the sum of `mass * vel`, per component. -/
def totalMomentum (balls : List (Ball K)) : Vector2 K :=
  ⟨(balls.map (fun b => b.mass * b.vel.x)).sum, (balls.map (fun b => b.mass * b.vel.y)).sum⟩

/-- The wind of each mode as the specification (section 4.3) gives it: mode 0 is `(0, 0)`,
mode 1 is `(15, 3)`, mode 2 is `(15 * sin(0.5 * t), 0)`. -/
def specWind (sin : K → K) (mode : Int) (t : K) : Vector2 K :=
  if mode = 0 then ⟨0, 0⟩
  else if mode = 1 then ⟨15, 3⟩
  else ⟨15 * sin (0.5 * t), 0⟩

/-- A frame in which only the key `W` is pressed, at time `t`. -/
def windKeyInput (t : K) : Input K :=
  ⟨fun k => decide (k = KeyboardKey.KEY_W), fun _ => false, fun _ => false, t⟩

/-- A frame in which the right mouse button and left shift are held (attract, inverted). -/
def attractInvertedInput : Input K :=
  ⟨fun _ => false, fun k => decide (k = KeyboardKey.KEY_LEFT_SHIFT),
   fun m => decide (m = MouseButton.MOUSE_BUTTON_RIGHT), 0⟩

/-- One possible run of the random number generator: every `randf` draws the middle value
`5000`, the palette index is `7`. -/
def midRandom : SpawnRandom :=
  ⟨5000, 5000, 5000, 5000, 7, 5000⟩

/-- A run of the random number generator in which `GetRandomValue(0, 25)` returns `25`. -/
def lastIndexRandom : SpawnRandom :=
  ⟨5000, 5000, 5000, 5000, 25, 5000⟩

/-- An overlapping, approaching pair with unequal masses `1` and `3` and restitutions `1/2`
and `1`: the left ball, moving right at speed `10`. -/
def heavyPairA : Ball K :=
  Ball.new ⟨0, 0⟩ ⟨10, 0⟩ 1 10 Color.RED (1 / 2) Ball.defaultG ⟨0, 0⟩

/-- The right ball of that pair, mass `3`, moving left at speed `2`, centre at `(16, 0)`. -/
def heavyPairB : Ball K :=
  Ball.new ⟨16, 0⟩ ⟨-2, 0⟩ 3 10 Color.BLUE 1 Ball.defaultG ⟨0, 0⟩

/-! ## The binary32 product in the overlap test

The overlap test of `ballsCollision` (source line 296) compares `dist * dist`, a `double`
product, with `radii_sum * radii_sum`, a `float` product: `radii_sum` is declared `float`
(line 288), so its square is rounded to binary32 before the comparison.  For a pair whose centres
are exactly `radii_sum` apart this rounding decides the branch.  The definitions below repeat
the loop body and the pass with that rounding as a parameter `f32`; with `f32` the identity they
are `collidePair`, `collideAt` and `BallSys.ballsCollision`. -/

/-- The body of the inner loop of `BallSys::ballsCollision` (source lines 269-319) with the
`float` product `radii_sum * radii_sum` of the overlap test rounded by `f32`. -/
def collidePairF32 (f32 sqrt : K → K) (bi bj : Ball K) : Ball K × Ball K :=
  let dist := pairDist sqrt bi bj
  let normal := pairNormal sqrt bi bj
  let radii_sum := pairRadiiSum bi bj
  let overlap := pairOverlap sqrt bi bj
  let speed_normal := pairSpeedNormal sqrt bi bj
  if dist * dist < f32 (radii_sum * radii_sum) then
    let bi1 := { bi with pos := Vector2Subtract bi.pos (Vector2Scale normal overlap) }
    let bj1 := { bj with pos := Vector2Add bj.pos (Vector2Scale normal overlap) }
    if speed_normal > 0 then
      (bi1, bj1)
    else
      let impulseScalar := pairImpulseScalar sqrt bi bj
      let impulseVector := Vector2Scale normal impulseScalar
      ({ bi1 with vel := Vector2Subtract bi1.vel (Vector2Scale impulseVector (1 / bi1.mass)) },
       { bj1 with vel := Vector2Add bj1.vel (Vector2Scale impulseVector (1 / bj1.mass)) })
  else
    (bi, bj)

/-- One iteration of the inner loop, with the rounded product. -/
def collideAtF32 (f32 sqrt : K → K) (i j : Nat) (balls : List (Ball K)) : List (Ball K) :=
  match balls[i]?, balls[j]? with
  | some bi, some bj =>
    let r := collidePairF32 f32 sqrt bi bj
    (balls.set i r.1).set j r.2
  | _, _ => balls

/-- Method `BallSys::ballsCollision`, with the rounded product. -/
def BallSys.ballsCollisionF32 (f32 sqrt : K → K) (s : BallSys K) : BallSys K :=
  let n := s.balls.length
  let balls := (List.range n).foldl
    (fun balls i => (List.range' (i + 1) (n - (i + 1))).foldl
      (fun balls j => collideAtF32 f32 sqrt i j balls) balls)
    s.balls
  { s with balls := balls }

end Defs

section Theorems

set_option linter.unusedSectionVars false

variable {K : Type} [LinearOrderedField K]

/-! ## Boundary collisions and containment -/

/-- The vertical block keeps the radius. -/
theorem collideVertical_radiusVisual (b : Ball K) (H : K) :
    (b.collideVertical H).radiusVisual = b.radiusVisual := by
  unfold Ball.collideVertical
  dsimp only
  split_ifs <;> rfl

/-- The vertical block keeps `pos.x`. -/
theorem collideVertical_pos_x (b : Ball K) (H : K) :
    (b.collideVertical H).pos.x = b.pos.x := by
  unfold Ball.collideVertical
  dsimp only
  split_ifs <;> rfl

/-- After the vertical block a ball with `r ≤ halfHeight` lies between ceiling and floor. -/
theorem collideVertical_bound (b : Ball K) (H : K) (hr : b.radiusVisual ≤ H) :
    abs (b.collideVertical H).pos.y + b.radiusVisual ≤ H := by
  have hfloor : abs (H - b.radiusVisual) + b.radiusVisual ≤ H := by
    rw [abs_of_nonneg (sub_nonneg.mpr hr)]; linarith
  have hceil : abs (-H + b.radiusVisual) + b.radiusVisual ≤ H := by
    rw [abs_of_nonpos (by linarith)]; linarith
  unfold Ball.collideVertical
  dsimp only
  split_ifs with h1 h2 h3 h4
  · exact hfloor
  · exact hfloor
  · exact hceil
  · exact hceil
  · have := abs_le.mpr ⟨(by linarith : -(H - b.radiusVisual) ≤ b.pos.y),
      (by linarith : b.pos.y ≤ H - b.radiusVisual)⟩
    linarith

/-- The horizontal block keeps the radius. -/
theorem collideHorizontal_radiusVisual (b : Ball K) (W : K) :
    (b.collideHorizontal W).radiusVisual = b.radiusVisual := by
  unfold Ball.collideHorizontal
  split_ifs <;> rfl

/-- The horizontal block keeps `pos.y`. -/
theorem collideHorizontal_pos_y (b : Ball K) (W : K) :
    (b.collideHorizontal W).pos.y = b.pos.y := by
  unfold Ball.collideHorizontal
  split_ifs <;> rfl

/-- After the horizontal block a ball with `r ≤ halfWidth` lies between the walls. -/
theorem collideHorizontal_bound (b : Ball K) (W : K) (hr : b.radiusVisual ≤ W) :
    abs (b.collideHorizontal W).pos.x + b.radiusVisual ≤ W := by
  have hright : abs (W - b.radiusVisual) + b.radiusVisual ≤ W := by
    rw [abs_of_nonneg (sub_nonneg.mpr hr)]; linarith
  have hleft : abs (-W + b.radiusVisual) + b.radiusVisual ≤ W := by
    rw [abs_of_nonpos (by linarith)]; linarith
  unfold Ball.collideHorizontal
  split_ifs with h1 h2
  · exact hright
  · exact hleft
  · have := abs_le.mpr ⟨(by linarith : -(W - b.radiusVisual) ≤ b.pos.x),
      (by linarith : b.pos.x ≤ W - b.radiusVisual)⟩
    linarith

/-- Boundary handling keeps the radius. -/
theorem CollisionHandling_radiusVisual (b : Ball K) (H W : K) :
    (b.CollisionHandling H W).radiusVisual = b.radiusVisual := by
  unfold Ball.CollisionHandling
  rw [collideHorizontal_radiusVisual, collideVertical_radiusVisual]

/-- Boundary handling puts a ball with `r ≤ halfHeight` and `r ≤ halfWidth` inside the box. -/
theorem CollisionHandling_contained (b : Ball K) (H W : K)
    (hH : b.radiusVisual ≤ H) (hW : b.radiusVisual ≤ W) :
    abs (b.CollisionHandling H W).pos.x + (b.CollisionHandling H W).radiusVisual ≤ W ∧
    abs (b.CollisionHandling H W).pos.y + (b.CollisionHandling H W).radiusVisual ≤ H := by
  rw [CollisionHandling_radiusVisual]
  unfold Ball.CollisionHandling
  constructor
  · have := collideHorizontal_bound (b.collideVertical H) W
      (by rw [collideVertical_radiusVisual]; exact hW)
    rwa [collideVertical_radiusVisual] at this
  · rw [collideHorizontal_pos_y]
    exact collideVertical_bound b H hH

/-- The integrator keeps the radius. -/
theorem rk4_radiusVisual (b : Ball K) (dt : K) (w : Vector2 K) :
    (b.rk4 dt w).radiusVisual = b.radiusVisual := rfl

/-- One `Ball::draw` keeps the radius. -/
theorem Ball_draw_radiusVisual (b : Ball K) : b.draw.radiusVisual = b.radiusVisual := by
  unfold Ball.draw
  simp only [CollisionHandling_radiusVisual, rk4_radiusVisual]

/-- C1 (containment). After one `BallSys::draw`, for any world, any input and any `sqrt`, `sin`,
every ball whose radius is below `min(960, 540)` satisfies `|pos.x| + r ≤ 960` and
`|pos.y| + r ≤ 540`. -/
theorem draw_containment (sqrt sin : K → K) (inp : Input K) (s : BallSys K) (b : Ball K)
    (hb : b ∈ (s.draw sqrt sin inp).balls) (hr : b.radiusVisual < min 960 540) :
    abs b.pos.x + b.radiusVisual ≤ 960 ∧ abs b.pos.y + b.radiusVisual ≤ 540 := by
  unfold BallSys.draw at hb
  simp only [List.mem_map] at hb
  obtain ⟨c, -, rfl⟩ := hb
  unfold BallSys.drawBall at hr ⊢
  dsimp only at hr ⊢
  rw [Ball_draw_radiusVisual] at hr
  have hr1 : c.radiusVisual < 960 := (lt_min_iff.mp hr).1
  have hr2 : c.radiusVisual < 540 := (lt_min_iff.mp hr).2
  unfold Ball.draw
  exact CollisionHandling_contained _ 540 960 (le_of_lt hr2) (le_of_lt hr1)

/-- The real square root satisfies the `sqrt` contract. -/
theorem isSqrt_real : IsSqrt Real.sqrt :=
  fun x hx => ⟨Real.sqrt_nonneg x, Real.mul_self_sqrt hx⟩

/-- Witness for C1: the one-ball world of scenario S3, ticked once on the reals. -/
theorem draw_containment_witness :
    ∃ b ∈ (BallSys.draw Real.sqrt Real.sin noInput (s3World : BallSys ℝ)).balls,
      b.radiusVisual < min 960 540 ∧
      (abs b.pos.x + b.radiusVisual ≤ 960 ∧ abs b.pos.y + b.radiusVisual ≤ 540) := by
  have hmem : (((s3World : BallSys ℝ).changeEnviroment noInput).changeWind Real.sin noInput).drawBall s3Ball ∈
      (BallSys.draw Real.sqrt Real.sin noInput (s3World : BallSys ℝ)).balls := by
    simp [BallSys.draw, BallSys.changeWind, BallSys.ballsCollision, BallSys.changeEnviroment,
      s3World, BallSys.new, noInput, pollPlanet, planetSwitch, List.range, List.range.loop,
      BallSys.drawBall]
  have hr : ((((s3World : BallSys ℝ).changeEnviroment noInput).changeWind Real.sin noInput).drawBall s3Ball).radiusVisual
      < min 960 540 := by
    unfold BallSys.drawBall
    rw [Ball_draw_radiusVisual]
    norm_num [s3Ball, Ball.new]
  exact ⟨_, hmem, hr, draw_containment Real.sqrt Real.sin noInput s3World _ hmem hr⟩

/-! ## The attractor -/

/-- The normal computed by the code has unit length (also in the fallback case). -/
theorem normalOf_dot_self (sqrt : K → K) (hs : IsSqrt sqrt) (d : Vector2 K) :
    Vector2DotProduct (normalOf d (Vector2Length sqrt d)) (normalOf d (Vector2Length sqrt d)) = 1 := by
  obtain ⟨h0, h2⟩ := hs (d.x * d.x + d.y * d.y) (by nlinarith [mul_self_nonneg d.x, mul_self_nonneg d.y])
  unfold normalOf Vector2DotProduct Vector2Length
  split_ifs with h
  · have hpos : 0 < sqrt (d.x * d.x + d.y * d.y) := lt_trans (by norm_num) h
    have hne := ne_of_gt hpos
    dsimp only
    field_simp
    linarith
  · simp

/-- For `dist > 0.001` the normal dotted with the distance vector is the distance. -/
theorem normalOf_dot_distanceVec (sqrt : K → K) (hs : IsSqrt sqrt) (d : Vector2 K)
    (h : 1 / 1000 < Vector2Length sqrt d) :
    Vector2DotProduct (normalOf d (Vector2Length sqrt d)) d = Vector2Length sqrt d := by
  obtain ⟨h0, h2⟩ := hs (d.x * d.x + d.y * d.y) (by nlinarith [mul_self_nonneg d.x, mul_self_nonneg d.y])
  unfold normalOf Vector2DotProduct
  unfold Vector2Length at h ⊢
  rw [if_pos h]
  have hpos : 0 < sqrt (d.x * d.x + d.y * d.y) := lt_trans (by norm_num) h
  have hne := ne_of_gt hpos
  dsimp only
  field_simp
  linarith

/-- The velocity change made by one iteration of the attractor loop. -/
theorem attractBall_dv (sqrt : K → K) (inp : Input K) (q : Vector2 K) (b : Ball K) :
    Vector2Subtract (attractBall sqrt inp q b).vel b.vel =
      Vector2Scale (normalOf (Vector2Subtract b.pos q) (Vector2Length sqrt (Vector2Subtract b.pos q)))
        (-((if inp.IsKeyDown KeyboardKey.KEY_LEFT_SHIFT then -1 else 1) * 1000 * (1 / b.mass))) := by
  unfold attractBall Vector2Subtract Vector2Scale
  simp only [Vector2.mk.injEq]
  constructor <;> ring

/-- C2 (amended). With the right mouse button held and left shift not held, `attractionPoint`
changes the velocity of every ball of positive mass, at distance above `0.001` from the pointer,
by a vector `dv` with `dv . (pos - q) < 0`: the default action pulls the ball towards the
pointer. -/
theorem attractionPoint_attracts (sqrt : K → K) (hs : IsSqrt sqrt) (inp : Input K)
    (q : Vector2 K) (s : BallSys K) (i : Nat) (b : Ball K)
    (hb : s.balls[i]? = some b)
    (hm : 0 < b.mass)
    (hd : 1 / 1000 < Vector2Length sqrt (Vector2Subtract b.pos q))
    (hheld : inp.IsMouseButtonDown MouseButton.MOUSE_BUTTON_RIGHT = true)
    (hshift : inp.IsKeyDown KeyboardKey.KEY_LEFT_SHIFT = false) :
    ∃ b1, (s.attractionPoint sqrt inp q).balls[i]? = some b1 ∧
      Vector2DotProduct (Vector2Subtract b1.vel b.vel) (Vector2Subtract b.pos q) < 0 := by
  refine ⟨attractBall sqrt inp q b, ?_, ?_⟩
  · simp [BallSys.attractionPoint, hheld, List.getElem?_map, hb]
  · have hdot := normalOf_dot_distanceVec sqrt hs _ hd
    rw [attractBall_dv, hshift]
    have hpos : 0 < Vector2Length sqrt (Vector2Subtract b.pos q) := lt_trans (by norm_num) hd
    have key : ∀ (n d : Vector2 K) (c : K), Vector2DotProduct (Vector2Scale n c) d
        = c * Vector2DotProduct n d := by
      intro n d c; unfold Vector2DotProduct Vector2Scale; ring
    rw [key, hdot]
    have : 0 < 1000 * (1 / b.mass) := by positivity
    simp only [Bool.false_eq_true, if_false]
    nlinarith

/-- In scenario S4 the ball is at distance `100` from the pointer. -/
theorem s4_dist : Vector2Length Real.sqrt (Vector2Subtract (s4Ball : Ball ℝ).pos s4Pointer) = 100 := by
  have h : Real.sqrt 10000 = 100 := by
    rw [show (10000 : ℝ) = 100 ^ 2 by norm_num]
    exact Real.sqrt_sq (by norm_num)
  norm_num [Vector2Length, Vector2Subtract, s4Ball, s4Pointer, Ball.new, h]

/-- Counterexample for C2 as stated: in scenario S4 (ball at the origin, at rest, mass `10`,
pointer at `(-100, 0)`, attract held, not inverted) the ball ends with `vel.x = -100`, which is not
positive, and the velocity change dotted with `pos - q` is not positive. -/
theorem attractor_default_repels_counterexample :
    0 < (s4Ball : Ball ℝ).mass ∧
    1 / 1000 < Vector2Length Real.sqrt (Vector2Subtract (s4Ball : Ball ℝ).pos s4Pointer) ∧
    (attractInput : Input ℝ).IsMouseButtonDown MouseButton.MOUSE_BUTTON_RIGHT = true ∧
    (attractInput : Input ℝ).IsKeyDown KeyboardKey.KEY_LEFT_SHIFT = false ∧
    ∃ b1 : Ball ℝ,
      ((BallSys.new [s4Ball] 0 0).attractionPoint Real.sqrt attractInput s4Pointer).balls = [b1] ∧
      b1.vel.x = -100 ∧ ¬ (0 < b1.vel.x) ∧
      ¬ (0 < Vector2DotProduct (Vector2Subtract b1.vel (s4Ball : Ball ℝ).vel)
          (Vector2Subtract (s4Ball : Ball ℝ).pos s4Pointer)) := by
  have hd := s4_dist
  refine ⟨by norm_num [s4Ball, Ball.new], by rw [hd]; norm_num, rfl, rfl,
    attractBall Real.sqrt attractInput s4Pointer s4Ball, ?_, ?_⟩
  · simp [BallSys.attractionPoint, BallSys.new, attractInput]
  · have hv : (attractBall Real.sqrt attractInput s4Pointer (s4Ball : Ball ℝ)).vel = ⟨-100, 0⟩ := by
      unfold attractBall
      dsimp only
      rw [hd]
      norm_num [normalOf, Vector2Subtract, Vector2Scale, s4Ball, s4Pointer, Ball.new, attractInput]
    rw [hv]
    norm_num [Vector2DotProduct, Vector2Subtract, s4Ball, s4Pointer, Ball.new]

/-- Witness for the amended C2: scenario S4 on the reals. -/
theorem attractionPoint_attracts_witness :
    ∃ b1 : Ball ℝ,
      ((BallSys.new [s4Ball] 0 0).attractionPoint Real.sqrt attractInput s4Pointer).balls[0]?
        = some b1 ∧
      Vector2DotProduct (Vector2Subtract b1.vel (s4Ball : Ball ℝ).vel)
        (Vector2Subtract (s4Ball : Ball ℝ).pos s4Pointer) < 0 :=
  attractionPoint_attracts Real.sqrt isSqrt_real attractInput s4Pointer (BallSys.new [s4Ball] 0 0)
    0 s4Ball rfl (by norm_num [s4Ball, Ball.new]) (by rw [s4_dist]; norm_num) rfl rfl

/-! ## Pairwise collisions -/

/-- The pair normal has unit length. -/
theorem pairNormal_dot_self (sqrt : K → K) (hs : IsSqrt sqrt) (bi bj : Ball K) :
    Vector2DotProduct (pairNormal sqrt bi bj) (pairNormal sqrt bi bj) = 1 :=
  normalOf_dot_self sqrt hs (pairDistanceVec bi bj)

/-- The pair normal is orthogonal to its tangent. -/
theorem dot_tangentOf (n : Vector2 K) : Vector2DotProduct n (tangentOf n) = 0 := by
  unfold Vector2DotProduct tangentOf
  ring

/-- The result of the loop body for an overlapping pair that is not separating. -/
theorem collidePair_approaching (sqrt : K → K) (bi bj : Ball K)
    (hov : pairDist sqrt bi bj * pairDist sqrt bi bj < pairRadiiSum bi bj * pairRadiiSum bi bj)
    (hap : pairSpeedNormal sqrt bi bj ≤ 0) :
    collidePair sqrt bi bj =
      ({ bi with
          pos := Vector2Subtract bi.pos (Vector2Scale (pairNormal sqrt bi bj) (pairOverlap sqrt bi bj))
          vel := Vector2Subtract bi.vel (Vector2Scale
            (Vector2Scale (pairNormal sqrt bi bj) (pairImpulseScalar sqrt bi bj)) (1 / bi.mass)) },
       { bj with
          pos := Vector2Add bj.pos (Vector2Scale (pairNormal sqrt bi bj) (pairOverlap sqrt bi bj))
          vel := Vector2Add bj.vel (Vector2Scale
            (Vector2Scale (pairNormal sqrt bi bj) (pairImpulseScalar sqrt bi bj)) (1 / bj.mass)) }) := by
  unfold collidePair
  dsimp only
  rw [if_pos hov, if_neg (not_lt.mpr hap)]

/-- The result of the loop body for an overlapping pair that is separating. -/
theorem collidePair_separating (sqrt : K → K) (bi bj : Ball K)
    (hov : pairDist sqrt bi bj * pairDist sqrt bi bj < pairRadiiSum bi bj * pairRadiiSum bi bj)
    (hsep : 0 < pairSpeedNormal sqrt bi bj) :
    collidePair sqrt bi bj =
      ({ bi with
          pos := Vector2Subtract bi.pos (Vector2Scale (pairNormal sqrt bi bj) (pairOverlap sqrt bi bj)) },
       { bj with
          pos := Vector2Add bj.pos (Vector2Scale (pairNormal sqrt bi bj) (pairOverlap sqrt bi bj)) }) := by
  unfold collidePair
  dsimp only
  rw [if_pos hov, if_pos hsep]

/-- Dot product of `v - (n * J) * c` with `w`. -/
theorem dot_sub_scale (v n w : Vector2 K) (J c : K) :
    Vector2DotProduct (Vector2Subtract v (Vector2Scale (Vector2Scale n J) c)) w =
      Vector2DotProduct v w - J * c * Vector2DotProduct n w := by
  unfold Vector2DotProduct Vector2Subtract Vector2Scale
  ring

/-- Dot product of `v + (n * J) * c` with `w`. -/
theorem dot_add_scale (v n w : Vector2 K) (J c : K) :
    Vector2DotProduct (Vector2Add v (Vector2Scale (Vector2Scale n J) c)) w =
      Vector2DotProduct v w + J * c * Vector2DotProduct n w := by
  unfold Vector2DotProduct Vector2Add Vector2Scale
  ring

/-- The relative normal speed is the difference of the two normal components. -/
theorem pairSpeedNormal_eq (sqrt : K → K) (bi bj : Ball K) :
    pairSpeedNormal sqrt bi bj =
      Vector2DotProduct bj.vel (pairNormal sqrt bi bj)
        - Vector2DotProduct bi.vel (pairNormal sqrt bi bj) := by
  unfold pairSpeedNormal Vector2DotProduct Vector2Subtract
  ring

/-- For equal masses the impulse per unit mass is `-(1 + e_avg) * speed_normal / 2`. -/
theorem pairImpulseScalar_equal_mass (sqrt : K → K) (bi bj : Ball K)
    (hm : 0 < bi.mass) (hmeq : bj.mass = bi.mass) :
    pairImpulseScalar sqrt bi bj * (1 / bi.mass) =
      -(1 + pairAverageE bi bj) * pairSpeedNormal sqrt bi bj / 2 := by
  unfold pairImpulseScalar
  dsimp only
  rw [hmeq]
  have hne := ne_of_gt hm
  field_simp
  ring

/-- C3 (amended). For an overlapping pair (`dist^2 < sumR^2`) with `v_rel . n <= 0` and equal
positive masses, with `a = v_i . n`, `b = v_j . n` and `e = (e_i + e_j)/2`, the loop body of
`ballsCollision` yields `v_i' . n = (1-e)/2 * a + (1+e)/2 * b` and
`v_j' . n = (1+e)/2 * a + (1-e)/2 * b`; hence the relative normal speed is reversed and scaled by
`e`.  The normal components are swapped and scaled by `e` (`v_i' . n = e * b`, `v_j' . n = e * a`)
exactly when `(1 - e) * (a + b) = 0`. -/
theorem collidePair_equal_mass_normal (sqrt : K → K) (hs : IsSqrt sqrt) (bi bj : Ball K)
    (hm : 0 < bi.mass) (hmeq : bj.mass = bi.mass)
    (hov : pairDist sqrt bi bj * pairDist sqrt bi bj < pairRadiiSum bi bj * pairRadiiSum bi bj)
    (hap : pairSpeedNormal sqrt bi bj ≤ 0) :
    Vector2DotProduct (collidePair sqrt bi bj).1.vel (pairNormal sqrt bi bj) =
        (1 - pairAverageE bi bj) / 2 * Vector2DotProduct bi.vel (pairNormal sqrt bi bj)
        + (1 + pairAverageE bi bj) / 2 * Vector2DotProduct bj.vel (pairNormal sqrt bi bj) ∧
    Vector2DotProduct (collidePair sqrt bi bj).2.vel (pairNormal sqrt bi bj) =
        (1 + pairAverageE bi bj) / 2 * Vector2DotProduct bi.vel (pairNormal sqrt bi bj)
        + (1 - pairAverageE bi bj) / 2 * Vector2DotProduct bj.vel (pairNormal sqrt bi bj) ∧
    Vector2DotProduct (collidePair sqrt bi bj).2.vel (pairNormal sqrt bi bj)
        - Vector2DotProduct (collidePair sqrt bi bj).1.vel (pairNormal sqrt bi bj) =
      -(pairAverageE bi bj) * pairSpeedNormal sqrt bi bj ∧
    ((Vector2DotProduct (collidePair sqrt bi bj).1.vel (pairNormal sqrt bi bj) =
          pairAverageE bi bj * Vector2DotProduct bj.vel (pairNormal sqrt bi bj) ∧
        Vector2DotProduct (collidePair sqrt bi bj).2.vel (pairNormal sqrt bi bj) =
          pairAverageE bi bj * Vector2DotProduct bi.vel (pairNormal sqrt bi bj)) ↔
      (1 - pairAverageE bi bj) *
        (Vector2DotProduct bi.vel (pairNormal sqrt bi bj)
          + Vector2DotProduct bj.vel (pairNormal sqrt bi bj)) = 0) := by
  have hJ := pairImpulseScalar_equal_mass sqrt bi bj hm hmeq
  have hJ2 : pairImpulseScalar sqrt bi bj * (1 / bj.mass) =
      -(1 + pairAverageE bi bj) * pairSpeedNormal sqrt bi bj / 2 := by rw [hmeq]; exact hJ
  have hn := pairNormal_dot_self sqrt hs bi bj
  have hsn := pairSpeedNormal_eq sqrt bi bj
  rw [collidePair_approaching sqrt bi bj hov hap]
  dsimp only
  rw [dot_sub_scale, dot_add_scale, hJ, hJ2, hn, hsn]
  refine ⟨by ring, by ring, by ring, ?_⟩
  constructor
  · rintro ⟨h1, -⟩
    linear_combination 2 * h1
  · intro h
    constructor
    · linear_combination (1 / 2 : K) * h
    · linear_combination (1 / 2 : K) * h

/-- A real number whose square is `x` and that is non-negative is the square root of `x`. -/
theorem real_sqrt_eq (x y : ℝ) (hy : 0 ≤ y) (h : y * y = x) : Real.sqrt x = y := by
  rw [← h]
  exact Real.sqrt_mul_self hy

/-- The centres of the restitution-`1/2` pair are at distance `10`. -/
theorem halfPair_dist : pairDist Real.sqrt (halfBallA : Ball ℝ) halfBallB = 10 := by
  unfold pairDist Vector2Length pairDistanceVec Vector2Subtract
  exact real_sqrt_eq _ 10 (by norm_num) (by norm_num [halfBallA, halfBallB, Ball.new])

/-- The normal of the restitution-`1/2` pair is `(1, 0)`. -/
theorem halfPair_normal : pairNormal Real.sqrt (halfBallA : Ball ℝ) halfBallB = ⟨1, 0⟩ := by
  unfold pairNormal
  rw [halfPair_dist]
  norm_num [normalOf, pairDistanceVec, Vector2Subtract, halfBallA, halfBallB, Ball.new]

/-- The restitution-`1/2` pair closes at relative normal speed `-10`. -/
theorem halfPair_speed : pairSpeedNormal Real.sqrt (halfBallA : Ball ℝ) halfBallB = -10 := by
  unfold pairSpeedNormal
  rw [halfPair_normal]
  norm_num [Vector2DotProduct, Vector2Subtract, halfBallA, halfBallB, Ball.new]

/-- Counterexample for C3 as stated: equal masses `1`, restitutions `1/2`, radii `10`, centres
`(0,0)` and `(10,0)`, velocities `(10,0)` and `(0,0)`.  The pair overlaps and approaches; the code
yields velocities `(5/2, 0)` and `(15/2, 0)`, while swapping and scaling by `e_avg = 1/2` would
give normal components `0` and `5`. -/
theorem equal_mass_swap_counterexample :
    0 < (halfBallA : Ball ℝ).mass ∧ (halfBallB : Ball ℝ).mass = (halfBallA : Ball ℝ).mass ∧
    pairDist Real.sqrt (halfBallA : Ball ℝ) halfBallB * pairDist Real.sqrt (halfBallA : Ball ℝ) halfBallB
      < pairRadiiSum (halfBallA : Ball ℝ) halfBallB * pairRadiiSum (halfBallA : Ball ℝ) halfBallB ∧
    pairSpeedNormal Real.sqrt (halfBallA : Ball ℝ) halfBallB ≤ 0 ∧
    (collidePair Real.sqrt (halfBallA : Ball ℝ) halfBallB).1.vel = ⟨5 / 2, 0⟩ ∧
    (collidePair Real.sqrt (halfBallA : Ball ℝ) halfBallB).2.vel = ⟨15 / 2, 0⟩ ∧
    ¬ (Vector2DotProduct (collidePair Real.sqrt (halfBallA : Ball ℝ) halfBallB).1.vel
          (pairNormal Real.sqrt (halfBallA : Ball ℝ) halfBallB) =
        pairAverageE (halfBallA : Ball ℝ) halfBallB *
          Vector2DotProduct (halfBallB : Ball ℝ).vel (pairNormal Real.sqrt (halfBallA : Ball ℝ) halfBallB)) ∧
    ¬ (Vector2DotProduct (collidePair Real.sqrt (halfBallA : Ball ℝ) halfBallB).2.vel
          (pairNormal Real.sqrt (halfBallA : Ball ℝ) halfBallB) =
        pairAverageE (halfBallA : Ball ℝ) halfBallB *
          Vector2DotProduct (halfBallA : Ball ℝ).vel (pairNormal Real.sqrt (halfBallA : Ball ℝ) halfBallB)) := by
  have hov : pairDist Real.sqrt (halfBallA : Ball ℝ) halfBallB * pairDist Real.sqrt (halfBallA : Ball ℝ) halfBallB
      < pairRadiiSum (halfBallA : Ball ℝ) halfBallB * pairRadiiSum (halfBallA : Ball ℝ) halfBallB := by
    rw [halfPair_dist]
    norm_num [pairRadiiSum, halfBallA, halfBallB, Ball.new]
  have hap : pairSpeedNormal Real.sqrt (halfBallA : Ball ℝ) halfBallB ≤ 0 := by
    rw [halfPair_speed]; norm_num
  have hJ : pairImpulseScalar Real.sqrt (halfBallA : Ball ℝ) halfBallB = 15 / 2 := by
    unfold pairImpulseScalar
    rw [halfPair_speed]
    norm_num [pairAverageE, halfBallA, halfBallB, Ball.new]
  have h1 : (collidePair Real.sqrt (halfBallA : Ball ℝ) halfBallB).1.vel = ⟨5 / 2, 0⟩ := by
    rw [collidePair_approaching Real.sqrt _ _ hov hap, hJ, halfPair_normal]
    norm_num [Vector2Subtract, Vector2Scale, halfBallA, Ball.new]
  have h2 : (collidePair Real.sqrt (halfBallA : Ball ℝ) halfBallB).2.vel = ⟨15 / 2, 0⟩ := by
    rw [collidePair_approaching Real.sqrt _ _ hov hap, hJ, halfPair_normal]
    norm_num [Vector2Add, Vector2Scale, halfBallB, Ball.new]
  refine ⟨by norm_num [halfBallA, Ball.new], rfl, hov, hap, h1, h2, ?_, ?_⟩
  · rw [h1, halfPair_normal]
    norm_num [Vector2DotProduct, pairAverageE, halfBallA, halfBallB, Ball.new]
  · rw [h2, halfPair_normal]
    norm_num [Vector2DotProduct, pairAverageE, halfBallA, halfBallB, Ball.new]

/-- Witness for the amended C3: the restitution-`1/2` pair on the reals. -/
theorem collidePair_equal_mass_normal_witness :
    Vector2DotProduct (collidePair Real.sqrt (halfBallA : Ball ℝ) halfBallB).1.vel
        (pairNormal Real.sqrt (halfBallA : Ball ℝ) halfBallB) =
      (1 - pairAverageE (halfBallA : Ball ℝ) halfBallB) / 2 *
          Vector2DotProduct (halfBallA : Ball ℝ).vel (pairNormal Real.sqrt (halfBallA : Ball ℝ) halfBallB)
        + (1 + pairAverageE (halfBallA : Ball ℝ) halfBallB) / 2 *
          Vector2DotProduct (halfBallB : Ball ℝ).vel (pairNormal Real.sqrt (halfBallA : Ball ℝ) halfBallB) :=
  (collidePair_equal_mass_normal Real.sqrt isSqrt_real halfBallA halfBallB
    (by norm_num [halfBallA, Ball.new]) rfl
    (by rw [halfPair_dist]; norm_num [pairRadiiSum, halfBallA, halfBallB, Ball.new])
    (by rw [halfPair_speed]; norm_num)).1

/-- A two-ball world: one pass of `ballsCollision` is one run of the loop body. -/
theorem ballsCollision_two (sqrt : K → K) (s : BallSys K) (bi bj : Ball K)
    (h : s.balls = [bi, bj]) :
    (s.ballsCollision sqrt).balls = [(collidePair sqrt bi bj).1, (collidePair sqrt bi bj).2] := by
  simp [BallSys.ballsCollision, h, List.range, List.range.loop, List.range', collideAt]

/-- C4 (separating pairs). For a pair with `dist^2 < sumR^2` and `(v_j - v_i) . n > 0`, the loop
body of `ballsCollision` leaves both velocities unchanged and moves `pos_i` by
`-n * (sumR - dist)/2` and `pos_j` by `+n * (sumR - dist)/2`. -/
theorem collidePair_separating_untouched (sqrt : K → K) (bi bj : Ball K)
    (hov : pairDist sqrt bi bj * pairDist sqrt bi bj < pairRadiiSum bi bj * pairRadiiSum bi bj)
    (hsep : 0 < Vector2DotProduct (Vector2Subtract bj.vel bi.vel) (pairNormal sqrt bi bj)) :
    (collidePair sqrt bi bj).1.vel = bi.vel ∧
    (collidePair sqrt bi bj).2.vel = bj.vel ∧
    (collidePair sqrt bi bj).1.pos = Vector2Subtract bi.pos
      (Vector2Scale (pairNormal sqrt bi bj) ((pairRadiiSum bi bj - pairDist sqrt bi bj) / 2)) ∧
    (collidePair sqrt bi bj).2.pos = Vector2Add bj.pos
      (Vector2Scale (pairNormal sqrt bi bj) ((pairRadiiSum bi bj - pairDist sqrt bi bj) / 2)) := by
  have hsep1 : 0 < pairSpeedNormal sqrt bi bj := hsep
  rw [collidePair_separating sqrt bi bj hov hsep1]
  unfold pairOverlap
  exact ⟨rfl, rfl, rfl, rfl⟩

/-- The centres of the separating pair are at distance `10`. -/
theorem sepPair_dist : pairDist Real.sqrt (sepBallA : Ball ℝ) sepBallB = 10 := by
  unfold pairDist Vector2Length pairDistanceVec Vector2Subtract
  exact real_sqrt_eq _ 10 (by norm_num) (by norm_num [sepBallA, sepBallB, Ball.new])

/-- The normal of the separating pair is `(1, 0)`. -/
theorem sepPair_normal : pairNormal Real.sqrt (sepBallA : Ball ℝ) sepBallB = ⟨1, 0⟩ := by
  unfold pairNormal
  rw [sepPair_dist]
  norm_num [normalOf, pairDistanceVec, Vector2Subtract, sepBallA, sepBallB, Ball.new]

/-- Witness for C4: the separating pair on the reals; the centres move from `0`, `10` to `-5`, `15`. -/
theorem collidePair_separating_untouched_witness :
    (collidePair Real.sqrt (sepBallA : Ball ℝ) sepBallB).1.vel = ⟨-10, 0⟩ ∧
    (collidePair Real.sqrt (sepBallA : Ball ℝ) sepBallB).2.vel = ⟨10, 0⟩ ∧
    (collidePair Real.sqrt (sepBallA : Ball ℝ) sepBallB).1.pos = ⟨-5, 0⟩ ∧
    (collidePair Real.sqrt (sepBallA : Ball ℝ) sepBallB).2.pos = ⟨15, 0⟩ := by
  have h := collidePair_separating_untouched Real.sqrt (sepBallA : Ball ℝ) sepBallB
    (by rw [sepPair_dist]; norm_num [pairRadiiSum, sepBallA, sepBallB, Ball.new])
    (by rw [sepPair_normal]
        norm_num [Vector2DotProduct, Vector2Subtract, sepBallA, sepBallB, Ball.new])
  rw [sepPair_dist, sepPair_normal] at h
  obtain ⟨h1, h2, h3, h4⟩ := h
  refine ⟨h1, h2, ?_, ?_⟩
  · rw [h3]
    norm_num [Vector2Subtract, Vector2Scale, pairRadiiSum, sepBallA, sepBallB, Ball.new]
  · rw [h4]
    norm_num [Vector2Add, Vector2Scale, pairRadiiSum, sepBallA, sepBallB, Ball.new]

/-- C7 (elastic exchange). For an overlapping, approaching pair with equal positive masses and
`e_i = e_j = 1`, the loop body of `ballsCollision` exchanges the normal components of the two
velocities and leaves both tangential components unchanged. -/
theorem collidePair_elastic_exchange (sqrt : K → K) (hs : IsSqrt sqrt) (bi bj : Ball K)
    (hm : 0 < bi.mass) (hmeq : bj.mass = bi.mass) (hei : bi.e = 1) (hej : bj.e = 1)
    (hov : pairDist sqrt bi bj * pairDist sqrt bi bj < pairRadiiSum bi bj * pairRadiiSum bi bj)
    (hap : pairSpeedNormal sqrt bi bj ≤ 0) :
    Vector2DotProduct (collidePair sqrt bi bj).1.vel (pairNormal sqrt bi bj) =
      Vector2DotProduct bj.vel (pairNormal sqrt bi bj) ∧
    Vector2DotProduct (collidePair sqrt bi bj).2.vel (pairNormal sqrt bi bj) =
      Vector2DotProduct bi.vel (pairNormal sqrt bi bj) ∧
    Vector2DotProduct (collidePair sqrt bi bj).1.vel (tangentOf (pairNormal sqrt bi bj)) =
      Vector2DotProduct bi.vel (tangentOf (pairNormal sqrt bi bj)) ∧
    Vector2DotProduct (collidePair sqrt bi bj).2.vel (tangentOf (pairNormal sqrt bi bj)) =
      Vector2DotProduct bj.vel (tangentOf (pairNormal sqrt bi bj)) := by
  have hJ := pairImpulseScalar_equal_mass sqrt bi bj hm hmeq
  have hJ2 : pairImpulseScalar sqrt bi bj * (1 / bj.mass) =
      -(1 + pairAverageE bi bj) * pairSpeedNormal sqrt bi bj / 2 := by rw [hmeq]; exact hJ
  have he : pairAverageE bi bj = 1 := by unfold pairAverageE; rw [hei, hej]; norm_num
  have hn := pairNormal_dot_self sqrt hs bi bj
  have ht := dot_tangentOf (pairNormal sqrt bi bj)
  have hsn := pairSpeedNormal_eq sqrt bi bj
  rw [collidePair_approaching sqrt bi bj hov hap]
  dsimp only
  rw [dot_sub_scale, dot_add_scale, dot_sub_scale, dot_add_scale, hJ, hJ2, hn, ht, hsn, he]
  refine ⟨by ring, by ring, by ring, by ring⟩

/-- The centres of the S2 pair are at distance `18`. -/
theorem s2_dist : pairDist Real.sqrt (s2BallA : Ball ℝ) s2BallB = 18 := by
  unfold pairDist Vector2Length pairDistanceVec Vector2Subtract
  exact real_sqrt_eq _ 18 (by norm_num) (by norm_num [s2BallA, s2BallB, Ball.new])

/-- The normal of the S2 pair is `(1, 0)`. -/
theorem s2_normal : pairNormal Real.sqrt (s2BallA : Ball ℝ) s2BallB = ⟨1, 0⟩ := by
  unfold pairNormal
  rw [s2_dist]
  norm_num [normalOf, pairDistanceVec, Vector2Subtract, s2BallA, s2BallB, Ball.new]

/-- Witness for C7 (scenario S2): `A.v = (+50,0)`, `B.v = (-50,0)`, `m = 1`, `r = 10`, `e = 1`,
centres `(-9,0)` and `(9,0)`: one pass of `ballsCollision` gives `A.v.x = -50`, `B.v.x = +50`. -/
theorem collidePair_elastic_exchange_witness :
    ((BallSys.new [(s2BallA : Ball ℝ), s2BallB] 0 0).ballsCollision Real.sqrt).balls =
      [(collidePair Real.sqrt (s2BallA : Ball ℝ) s2BallB).1,
       (collidePair Real.sqrt (s2BallA : Ball ℝ) s2BallB).2] ∧
    (collidePair Real.sqrt (s2BallA : Ball ℝ) s2BallB).1.vel.x = -50 ∧
    (collidePair Real.sqrt (s2BallA : Ball ℝ) s2BallB).2.vel.x = 50 := by
  have h := collidePair_elastic_exchange Real.sqrt isSqrt_real (s2BallA : Ball ℝ) s2BallB
    (by norm_num [s2BallA, Ball.new]) rfl rfl rfl
    (by rw [s2_dist]; norm_num [pairRadiiSum, s2BallA, s2BallB, Ball.new])
    (by unfold pairSpeedNormal
        rw [s2_normal]
        norm_num [Vector2DotProduct, Vector2Subtract, s2BallA, s2BallB, Ball.new])
  rw [s2_normal] at h
  obtain ⟨h1, h2, -, -⟩ := h
  refine ⟨ballsCollision_two Real.sqrt _ _ _ rfl, ?_, ?_⟩
  · have : Vector2DotProduct (s2BallB : Ball ℝ).vel ⟨1, 0⟩ = -50 := by
      norm_num [Vector2DotProduct, s2BallB, Ball.new]
    rw [this] at h1
    simpa [Vector2DotProduct] using h1
  · have : Vector2DotProduct (s2BallA : Ball ℝ).vel ⟨1, 0⟩ = 50 := by
      norm_num [Vector2DotProduct, s2BallA, Ball.new]
    rw [this] at h2
    simpa [Vector2DotProduct] using h2

/-! ## Floor bounce -/

/-- The horizontal block leaves the vertical velocity alone. -/
theorem collideHorizontal_vel_y (b : Ball K) (W : K) :
    (b.collideHorizontal W).vel.y = b.vel.y := by
  unfold Ball.collideHorizontal
  split_ifs <;> rfl

/-- C5 (restitution bound). For a ball with `0 <= e <= 1` that hits the floor
(`pos.y + r > halfHeight`) with `|vel.y| >= 50`, `CollisionHandling` yields
`vel.y_new = -e * vel.y_old`: so `|vel.y_new| = e * |vel.y_old| <= |vel.y_old|`, the new vertical
velocity never points the way the old one did, and for `e > 0` its sign is strictly opposite. -/
theorem floor_bounce_restitution (b : Ball K) (H W : K)
    (he0 : 0 ≤ b.e) (he1 : b.e ≤ 1)
    (hfloor : b.pos.y + b.radiusVisual > H) (hfast : 50 ≤ abs b.vel.y) :
    (b.CollisionHandling H W).vel.y = -(b.e * b.vel.y) ∧
    abs (b.CollisionHandling H W).vel.y = b.e * abs b.vel.y ∧
    abs (b.CollisionHandling H W).vel.y ≤ abs b.vel.y ∧
    (0 < b.vel.y → (b.CollisionHandling H W).vel.y ≤ 0) ∧
    (b.vel.y < 0 → 0 ≤ (b.CollisionHandling H W).vel.y) ∧
    (0 < b.e → (b.CollisionHandling H W).vel.y * b.vel.y < 0) := by
  have hv : (b.CollisionHandling H W).vel.y = -(b.e * b.vel.y) := by
    unfold Ball.CollisionHandling
    rw [collideHorizontal_vel_y]
    unfold Ball.collideVertical
    dsimp only
    rw [if_pos hfloor, if_neg (not_lt.mpr hfast)]
    dsimp only
    ring
  have habs : abs (-(b.e * b.vel.y)) = b.e * abs b.vel.y := by
    rw [abs_neg, abs_mul, abs_of_nonneg he0]
  have hne : b.vel.y ≠ 0 := by
    intro h0
    rw [h0, abs_zero] at hfast
    linarith
  rw [hv, habs]
  refine ⟨rfl, rfl, ?_, ?_, ?_, ?_⟩
  · calc b.e * abs b.vel.y ≤ 1 * abs b.vel.y :=
          mul_le_mul_of_nonneg_right he1 (abs_nonneg _)
      _ = abs b.vel.y := one_mul _
  · intro hpos
    have := mul_nonneg he0 (le_of_lt hpos)
    linarith
  · intro hneg
    have := mul_nonneg he0 (le_of_lt (neg_pos.mpr hneg))
    linarith
  · intro hepos
    have hsq : 0 < b.vel.y * b.vel.y := mul_self_pos.mpr hne
    have := mul_pos hepos hsq
    linarith

/-- Witness for C5: `vel.y = 60`, `e = 1/2`, `pos.y + r = 545 > 540` gives `vel.y = -30`. -/
theorem floor_bounce_restitution_witness :
    ((bounceBall : Ball ℚ).CollisionHandling 540 960).vel.y = -30 := by
  have h := (floor_bounce_restitution (bounceBall : Ball ℚ) 540 960
    (by norm_num [bounceBall, Ball.new]) (by norm_num [bounceBall, Ball.new])
    (by norm_num [bounceBall, Ball.new])
    (by norm_num [bounceBall, Ball.new, abs_of_nonneg])).1
  rw [h]
  norm_num [bounceBall, Ball.new]

/-- C6 (floor stop threshold). For a ball with `pos.y + r > halfHeight` and `|vel.y| < 50`,
`CollisionHandling` sets `pos.y = halfHeight - r` and `vel.y = 0`. -/
theorem floor_stop (b : Ball K) (H W : K)
    (hfloor : b.pos.y + b.radiusVisual > H) (hslow : abs b.vel.y < 50) :
    (b.CollisionHandling H W).pos.y = H - b.radiusVisual ∧
    (b.CollisionHandling H W).vel.y = 0 := by
  unfold Ball.CollisionHandling
  rw [collideHorizontal_vel_y, collideHorizontal_pos_y]
  unfold Ball.collideVertical
  dsimp only
  rw [if_pos hfloor, if_pos hslow]
  exact ⟨rfl, rfl⟩

/-- In the first frame of scenario S3 the system hands `s3BallEarth` to `Ball::draw`. -/
theorem s3_draw_balls :
    (BallSys.draw Real.sqrt Real.sin noInput (s3World : BallSys ℝ)).balls =
      [((s3BallEarth : Ball ℝ).rk4 (7 / 100) ⟨0, 0⟩).CollisionHandling 540 960] := by
  simp [BallSys.draw, BallSys.changeWind, BallSys.ballsCollision, BallSys.changeEnviroment,
    s3World, BallSys.new, noInput, pollPlanet, planetSwitch, List.range, List.range.loop,
    BallSys.drawBall, s3BallEarth, Ball.draw]

/-- Witness for C6 (scenario S3): `pos=(0,535), v=(0,40), r=10, e=0.5`, mass `5`, preset Earth:
after one `BallSys::draw` the ball has `pos.y = 530` and `vel.y = 0`.  The theorem is applied to
the ball as it leaves `rk4`. -/
theorem floor_stop_witness :
    (BallSys.draw Real.sqrt Real.sin noInput (s3World : BallSys ℝ)).balls.map
      (fun b => (b.pos.y, b.vel.y)) = [(530, 0)] := by
  have h := floor_stop ((s3BallEarth : Ball ℝ).rk4 (7 / 100) ⟨0, 0⟩) 540 960
    (by norm_num [s3BallEarth, s3Ball, Ball.rk4, Ball.accel, Ball.new, Vector2Add, Vector2Scale,
          Ball.SphereDC, Ball.defaultG, abs_of_nonneg])
    (by norm_num [s3BallEarth, s3Ball, Ball.rk4, Ball.accel, Ball.new, Vector2Add, Vector2Scale,
          Ball.SphereDC, Ball.defaultG, abs_of_nonneg])
  rw [s3_draw_balls]
  simp only [List.map_cons, List.map_nil, h.1, h.2]
  norm_num [rk4_radiusVisual, s3BallEarth, s3Ball, Ball.new]

/-! ## The integrator -/

/-- C9 (no horizontal drag). One `rk4` step yields `vel.x_new = vel.x + dt * w.x` and
`pos.x_new = pos.x + dt * vel.x + (dt^2 / 2) * w.x`, for every ball state, `dt` and wind `w`; the
right-hand sides do not mention `g`, `airDensity`, `mass`, `A` or `vel.y`. -/
theorem rk4_horizontal (b : Ball K) (dt : K) (w : Vector2 K) :
    (b.rk4 dt w).vel.x = b.vel.x + dt * w.x ∧
    (b.rk4 dt w).pos.x = b.pos.x + dt * b.vel.x + dt ^ 2 / 2 * w.x := by
  unfold Ball.rk4 Ball.accel Vector2Add Vector2Scale
  dsimp only
  constructor <;> ring

/-- The vertical acceleration returned by `accel`, written out. -/
theorem accel_dvel_y (b : Ball K) (p v w : Vector2 K) :
    (b.accel p v w).dvel.y =
      (b.mass * b.g + 1 / 2 * b.airDensity * Ball.SphereDC * b.A * v.y * abs v.y * -1) / b.mass
        + w.y := rfl

/-- The velocity slot of the derivative is the velocity argument. -/
theorem accel_dpos (b : Ball K) (p v w : Vector2 K) : (b.accel p v w).dpos = v := rfl

/-- At terminal velocity gravity and drag cancel. -/
theorem accel_at_terVel (sqrt : K → K) (hs : IsSqrt sqrt) (b : Ball K)
    (hm : 0 < b.mass) (hA : 0 < b.A) (hg : 0 ≤ b.g) (hrho : 0 < b.airDensity)
    (p v : Vector2 K) (hv : v.y = b.terVel sqrt) :
    (b.accel p v ⟨0, 0⟩).dvel.y = 0 := by
  have hC : (0 : K) < Ball.SphereDC := by unfold Ball.SphereDC; norm_num
  have hbot : 0 < b.airDensity * Ball.SphereDC * b.A := by positivity
  have htop : 0 ≤ 2 * b.mass * b.g := by positivity
  obtain ⟨h0, h2⟩ := hs (2 * b.mass * b.g / (b.airDensity * Ball.SphereDC * b.A))
    (div_nonneg htop (le_of_lt hbot))
  have hT : b.terVel sqrt = sqrt (2 * b.mass * b.g / (b.airDensity * Ball.SphereDC * b.A)) := rfl
  rw [accel_dvel_y, hv, hT, abs_of_nonneg h0]
  have hdrag : 1 / 2 * b.airDensity * Ball.SphereDC * b.A
      * sqrt (2 * b.mass * b.g / (b.airDensity * Ball.SphereDC * b.A))
      * sqrt (2 * b.mass * b.g / (b.airDensity * Ball.SphereDC * b.A)) = b.mass * b.g := by
    rw [mul_assoc, h2]
    field_simp
    ring
  rw [hdrag]
  simp

/-- C8 (terminal velocity is a steady state). For a ball with `mass > 0`, `A > 0`, `g >= 0`,
`airDensity > 0` and zero wind, if `vel.y = terVel()` then `accel` returns zero vertical
acceleration, and one `rk4` step with any `dt` leaves `vel.y` unchanged and advances `pos.y` by
exactly `dt * terVel()`. -/
theorem terVel_steady_state (sqrt : K → K) (hs : IsSqrt sqrt) (b : Ball K) (dt : K)
    (hm : 0 < b.mass) (hA : 0 < b.A) (hg : 0 ≤ b.g) (hrho : 0 < b.airDensity)
    (hv : b.vel.y = b.terVel sqrt) :
    (∀ p : Vector2 K, (b.accel p b.vel ⟨0, 0⟩).dvel.y = 0) ∧
    (b.rk4 dt ⟨0, 0⟩).vel.y = b.vel.y ∧
    (b.rk4 dt ⟨0, 0⟩).pos.y = b.pos.y + dt * b.terVel sqrt := by
  have hacc : ∀ (p v : Vector2 K), v.y = b.vel.y → (b.accel p v ⟨0, 0⟩).dvel.y = 0 :=
    fun p v h => accel_at_terVel sqrt hs b hm hA hg hrho p v (h.trans hv)
  -- the four stages of the step
  let k1 := b.accel b.pos b.vel ⟨0, 0⟩
  let v2 := Vector2Add b.vel (Vector2Scale k1.dvel (dt * (1 / 2)))
  let k2 := b.accel (Vector2Add b.pos (Vector2Scale k1.dpos (dt * (1 / 2)))) v2 ⟨0, 0⟩
  let v3 := Vector2Add b.vel (Vector2Scale k2.dvel (dt * (1 / 2)))
  let k3 := b.accel (Vector2Add b.pos (Vector2Scale k2.dpos (dt * (1 / 2)))) v3 ⟨0, 0⟩
  let v4 := Vector2Add b.vel (Vector2Scale k3.dvel dt)
  let k4 := b.accel (Vector2Add b.pos (Vector2Scale k3.dpos dt)) v4 ⟨0, 0⟩
  have h1 : k1.dvel.y = 0 := hacc _ _ rfl
  have hv2 : v2.y = b.vel.y := by
    show b.vel.y + k1.dvel.y * (dt * (1 / 2)) = b.vel.y
    rw [h1, zero_mul, add_zero]
  have h2 : k2.dvel.y = 0 := hacc _ _ hv2
  have hv3 : v3.y = b.vel.y := by
    show b.vel.y + k2.dvel.y * (dt * (1 / 2)) = b.vel.y
    rw [h2, zero_mul, add_zero]
  have h3 : k3.dvel.y = 0 := hacc _ _ hv3
  have hv4 : v4.y = b.vel.y := by
    show b.vel.y + k3.dvel.y * dt = b.vel.y
    rw [h3, zero_mul, add_zero]
  have h4 : k4.dvel.y = 0 := hacc _ _ hv4
  refine ⟨fun p => hacc p b.vel rfl, ?_, ?_⟩
  · show b.vel.y + (k1.dvel.y + k2.dvel.y * 2 + k3.dvel.y * 2 + k4.dvel.y) * (dt / 6) = b.vel.y
    rw [h1, h2, h3, h4]
    ring
  · show b.pos.y + (b.vel.y + v2.y * 2 + v3.y * 2 + v4.y) * (dt / 6) = b.pos.y + dt * b.terVel sqrt
    rw [hv2, hv3, hv4, ← hv]
    ring

/-- The ball of scenario S1 has positive cross-section. -/
theorem s1Ball_A_pos : 0 < (s1Ball : Ball ℝ).A := by
  norm_num [s1Ball, Ball.new]

/-- Witness for C8: the ball of scenario S1 (`m=5`, `r=10`, Earth) moving at its terminal
velocity keeps it through one step with `dt = 0.07`. -/
theorem terVel_steady_state_witness :
    ((s1BallTerminal Real.sqrt).rk4 (7 / 100) ⟨0, 0⟩).vel.y = (s1Ball : Ball ℝ).terVel Real.sqrt ∧
    ((s1BallTerminal Real.sqrt).rk4 (7 / 100) ⟨0, 0⟩).pos.y =
      -500 + 7 / 100 * (s1Ball : Ball ℝ).terVel Real.sqrt := by
  have h := terVel_steady_state Real.sqrt isSqrt_real (s1BallTerminal Real.sqrt) (7 / 100)
    (by norm_num [s1BallTerminal, s1Ball, Ball.new])
    s1Ball_A_pos
    (by norm_num [s1BallTerminal, s1Ball, Ball.new, Ball.defaultG])
    (by norm_num [s1BallTerminal, s1Ball, Ball.new])
    rfl
  exact ⟨h.2.1, h.2.2⟩

/-! ## Presets -/

/-- The `switch` yields the row of the table for every listed id. -/
theorem planetSwitch_table (row : Int × K × K) (h : row ∈ (specPresetTable : List (Int × K × K))) :
    (planetSwitch row.1 : K × K × String).1 = row.2.1 ∧
    (planetSwitch row.1 : K × K × String).2.1 = row.2.2 := by
  simp only [specPresetTable, List.mem_cons, List.mem_singleton, List.not_mem_nil, or_false] at h
  rcases h with h | h | h | h | h | h | h | h | h | h <;> subst h <;>
    (constructor <;> norm_num [planetSwitch])

/-- With no preset key pressed the polled planet is the old one. -/
theorem pollPlanet_no_key (inp : Input K) (p : Int)
    (h : ∀ kid ∈ specPresetKeys, inp.IsKeyPressed kid.1 = false) :
    pollPlanet inp p = p := by
  simp only [specPresetKeys, List.mem_cons, List.mem_singleton, List.not_mem_nil, or_false,
    forall_eq_or_imp, forall_eq] at h
  obtain ⟨h1, h2, h3, h4, h5, h6, h7, h8, h9, h10⟩ := h
  simp [pollPlanet, h1, h2, h3, h4, h5, h6, h7, h8, h9, h10]

/-- A single pressed preset key selects its id. -/
theorem pollPlanet_single_key (inp : Input K) (p : Int) (kid : KeyboardKey × Int)
    (hk : kid ∈ specPresetKeys) (hp : inp.IsKeyPressed kid.1 = true)
    (ho : ∀ k, k ≠ kid.1 → inp.IsKeyPressed k = false) :
    pollPlanet inp p = kid.2 := by
  simp only [specPresetKeys, List.mem_cons, List.mem_singleton, List.not_mem_nil, or_false] at hk
  rcases hk with h | h | h | h | h | h | h | h | h | h <;> subst h <;>
    simp [pollPlanet, hp, ho]

/-- The `changeWind` step does not touch the preset fields. -/
theorem changeWind_preset (sin : K → K) (inp : Input K) (s : BallSys K) :
    (s.changeWind sin inp).current_planet = s.current_planet ∧
    (s.changeWind sin inp).current_g = s.current_g ∧
    (s.changeWind sin inp).current_airDensity = s.current_airDensity := by
  unfold BallSys.changeWind
  dsimp only
  split_ifs <;> exact ⟨rfl, rfl, rfl⟩

/-- The preset fields after one `draw` are those computed by `changeEnviroment`. -/
theorem draw_preset (sqrt sin : K → K) (inp : Input K) (s : BallSys K) :
    (s.draw sqrt sin inp).current_planet = pollPlanet inp s.current_planet ∧
    (s.draw sqrt sin inp).current_g = (planetSwitch (pollPlanet inp s.current_planet)).1 ∧
    (s.draw sqrt sin inp).current_airDensity
      = (planetSwitch (pollPlanet inp s.current_planet) : K × K × String).2.1 := by
  obtain ⟨h1, h2, h3⟩ := changeWind_preset sin inp ((s.changeEnviroment inp).ballsCollision sqrt)
  unfold BallSys.draw
  dsimp only
  rw [h1, h2, h3]
  exact ⟨rfl, rfl, rfl⟩

/-- Earth stays selected, with the Earth values, over frames without a preset key. -/
theorem foldl_draw_earth (sqrt sin : K → K) (inps : List (Input K))
    (hno : ∀ i ∈ inps, ∀ kid ∈ specPresetKeys, i.IsKeyPressed kid.1 = false) (s : BallSys K)
    (hp : s.current_planet = 3) (hg : s.current_g = 981 / 10)
    (hrho : s.current_airDensity = 1225 / 1000) :
    (inps.foldl (fun st i => st.draw sqrt sin i) s).current_planet = 3 ∧
    (inps.foldl (fun st i => st.draw sqrt sin i) s).current_g = 981 / 10 ∧
    (inps.foldl (fun st i => st.draw sqrt sin i) s).current_airDensity = 1225 / 1000 := by
  induction inps generalizing s with
  | nil => exact ⟨hp, hg, hrho⟩
  | cons i rest ih =>
    have hi := pollPlanet_no_key i s.current_planet (hno i (List.mem_cons_self _ _))
    obtain ⟨d1, d2, d3⟩ := draw_preset sqrt sin i s
    rw [hi, hp] at d1 d2 d3
    rw [List.foldl_cons]
    refine ih (fun j hj => hno j (List.mem_cons_of_mem _ hj)) _ d1 ?_ ?_
    · rw [d2]; norm_num [planetSwitch]
    · rw [d3]; norm_num [planetSwitch]

/-- C10 (preset table). For every frame input and state: (1) whenever the preset id selected by
`changeEnviroment` is the id of a row of the table of the specification, `current_g` and
`current_airDensity` are the values of that row; (2) every id in `1..10` has a row; (3) a single
pressed preset key selects its id; (4) the values are copied to every ball, and no ball is added
or removed; (5) from construction on, over any number of frames in which no preset key is
pressed, the selected preset stays `3` (Earth), and after the first frame the values are
`(98.1, 1.225)`. -/
theorem changeEnviroment_preset_table (sqrt sin : K → K) (inp : Input K) (s : BallSys K) :
    (∀ row ∈ (specPresetTable : List (Int × K × K)),
      (s.changeEnviroment inp).current_planet = row.1 →
        (s.changeEnviroment inp).current_g = row.2.1 ∧
        (s.changeEnviroment inp).current_airDensity = row.2.2) ∧
    (∀ id : Int, 1 ≤ id → id ≤ 10 →
      ∃ row ∈ (specPresetTable : List (Int × K × K)), row.1 = id) ∧
    (∀ kid ∈ specPresetKeys, inp.IsKeyPressed kid.1 = true →
      (∀ k, k ≠ kid.1 → inp.IsKeyPressed k = false) →
        (s.changeEnviroment inp).current_planet = kid.2) ∧
    ((s.changeEnviroment inp).balls.length = s.balls.length ∧
      ∀ b ∈ (s.changeEnviroment inp).balls,
        b.g = (s.changeEnviroment inp).current_g ∧
        b.airDensity = (s.changeEnviroment inp).current_airDensity) ∧
    (∀ (balls : List (Ball K)) (g0 rho0 : K) (inps : List (Input K)),
      (∀ i ∈ inps, ∀ kid ∈ specPresetKeys, i.IsKeyPressed kid.1 = false) →
        (inps.foldl (fun st i => st.draw sqrt sin i) (BallSys.new balls g0 rho0)).current_planet
          = 3 ∧
        (inps ≠ [] →
          (inps.foldl (fun st i => st.draw sqrt sin i) (BallSys.new balls g0 rho0)).current_g
            = 98.1 ∧
          (inps.foldl (fun st i => st.draw sqrt sin i)
            (BallSys.new balls g0 rho0)).current_airDensity = 1.225)) := by
  refine ⟨?_, ?_, ?_, ⟨?_, ?_⟩, ?_⟩
  · intro row hrow hid
    have hsw := planetSwitch_table row hrow
    have hid1 : pollPlanet inp s.current_planet = row.1 := hid
    show (planetSwitch (pollPlanet inp s.current_planet) : K × K × String).1 = row.2.1 ∧
      (planetSwitch (pollPlanet inp s.current_planet) : K × K × String).2.1 = row.2.2
    rw [hid1]
    exact hsw
  · intro id h1 h10
    have : id = 1 ∨ id = 2 ∨ id = 3 ∨ id = 4 ∨ id = 5 ∨ id = 6 ∨ id = 7 ∨ id = 8 ∨ id = 9
        ∨ id = 10 := by omega
    rcases this with h | h | h | h | h | h | h | h | h | h <;> subst h <;>
      simp [specPresetTable]
  · intro kid hk hp ho
    exact pollPlanet_single_key inp s.current_planet kid hk hp ho
  · simp [BallSys.changeEnviroment]
  · intro b hb
    simp only [BallSys.changeEnviroment, List.mem_map] at hb
    obtain ⟨c, -, rfl⟩ := hb
    exact ⟨rfl, rfl⟩
  · intro balls g0 rho0 inps hno
    cases inps with
    | nil => exact ⟨rfl, fun h => absurd rfl h⟩
    | cons i rest =>
      have hi := pollPlanet_no_key i (BallSys.new balls g0 rho0).current_planet
        (hno i (List.mem_cons_self _ _))
      obtain ⟨d1, d2, d3⟩ := draw_preset sqrt sin i (BallSys.new balls g0 rho0)
      have h3 : (BallSys.new balls g0 rho0).current_planet = 3 := rfl
      rw [hi, h3] at d1 d2 d3
      have := foldl_draw_earth sqrt sin rest (fun j hj => hno j (List.mem_cons_of_mem _ hj))
        ((BallSys.new balls g0 rho0).draw sqrt sin i) d1
        (by rw [d2]; norm_num [planetSwitch]) (by rw [d3]; norm_num [planetSwitch])
      rw [List.foldl_cons]
      refine ⟨this.1, fun _ => ⟨?_, ?_⟩⟩
      · rw [this.2.1]; norm_num
      · rw [this.2.2]; norm_num

/-- Witness for C10: pressing key `0` in the one-ball world of scenario S3 selects preset `10`
(Sun) with `(2740, 0.0001)`, copied to the ball. -/
theorem changeEnviroment_preset_table_witness :
    ((s3World : BallSys ℚ).changeEnviroment zeroKeyInput).current_planet = 10 ∧
    ((s3World : BallSys ℚ).changeEnviroment zeroKeyInput).current_g = 2740 ∧
    ((s3World : BallSys ℚ).changeEnviroment zeroKeyInput).current_airDensity = 1 / 10000 ∧
    ((s3World : BallSys ℚ).changeEnviroment zeroKeyInput).balls.map (fun b => (b.g, b.airDensity))
      = [(2740, 1 / 10000)] := by
  have h := changeEnviroment_preset_table (fun x => x) (fun x => x) zeroKeyInput
    (s3World : BallSys ℚ)
  have hp : ((s3World : BallSys ℚ).changeEnviroment zeroKeyInput).current_planet = 10 :=
    h.2.2.1 (KeyboardKey.KEY_ZERO, 10) (by simp [specPresetKeys]) (by simp [zeroKeyInput])
      (by intro k hk; simpa [zeroKeyInput] using hk)
  have hv := h.1 (10, 2740, 0.0001) (by simp [specPresetTable]) hp
  refine ⟨hp, hv.1, by rw [hv.2]; norm_num, ?_⟩
  simp [BallSys.changeEnviroment, s3World, BallSys.new, zeroKeyInput, pollPlanet, planetSwitch]

/-! ## Spawning -/

/-- For an outcome in `0..10000` and `min ≤ max`, `randf` lies in `[min, max]`. -/
theorem randf_mem (min max : K) (v : Nat) (hmm : min ≤ max) (hv : v ≤ 10000) :
    min ≤ randf min max v ∧ randf min max v ≤ max := by
  have h0 : (0 : K) ≤ (v : K) / 10000 := by positivity
  have h1 : (v : K) / 10000 ≤ 1 := by
    rw [div_le_one (by norm_num)]
    exact_mod_cast hv
  have hd : 0 ≤ max - min := sub_nonneg.mpr hmm
  unfold randf
  constructor
  · have := mul_nonneg h0 hd
    linarith
  · have := mul_le_mul_of_nonneg_right h1 hd
    linarith

/-- The constructor computes `realRadius` and `A` from the radius. -/
theorem Ball_new_A (Pos Vel : Vector2 K) (mass radius : K) (color : Color) (restitution g : K)
    (w : Vector2 K) :
    (Ball.new Pos Vel mass radius color restitution g w).realRadius = radius / 10000 ∧
    (Ball.new Pos Vel mass radius color restitution g w).A
      = 31415 / 10000 * (radius / 10000) * (radius / 10000) := ⟨rfl, rfl⟩

/-- C11 (spawned bodies). For every outcome of the random number generator in which the five
`GetRandomValue(0, 10000)` results lie in `0..10000` (and for any palette index), `addOnClick(q)`
appends exactly one ball, with `pos = q`, `vel.x`, `vel.y` in `[-100, 100]`, `mass` and
`radiusVisual` in `[1, 75]` and `e` in `[0.8, 1]`; hence `mass > 0`, `radiusVisual > 0`,
`0 <= e <= 1` and `A > 0`. -/
theorem addOnClick_invariants (rnd : SpawnRandom) (oob : Color) (windAcc0 q : Vector2 K)
    (s : BallSys K)
    (hvx : rnd.vel_x ≤ 10000) (hvy : rnd.vel_y ≤ 10000) (hm : rnd.m ≤ 10000)
    (hr : rnd.r ≤ 10000) (he : rnd.e ≤ 10000) :
    ∃ b : Ball K, (s.addOnClick rnd oob windAcc0 q).balls = s.balls ++ [b] ∧
      b.pos = q ∧
      (-100 ≤ b.vel.x ∧ b.vel.x ≤ 100) ∧ (-100 ≤ b.vel.y ∧ b.vel.y ≤ 100) ∧
      (1 ≤ b.mass ∧ b.mass ≤ 75) ∧ (1 ≤ b.radiusVisual ∧ b.radiusVisual ≤ 75) ∧
      (8 / 10 ≤ b.e ∧ b.e ≤ 1) ∧
      0 < b.mass ∧ 0 < b.radiusVisual ∧ (0 ≤ b.e ∧ b.e ≤ 1) ∧ 0 < b.A := by
  have hx := randf_mem (-100 : K) 100 rnd.vel_x (by norm_num) hvx
  have hy := randf_mem (-100 : K) 100 rnd.vel_y (by norm_num) hvy
  have hmass := randf_mem (1 : K) 75 rnd.m (by norm_num) hm
  have hrad := randf_mem (1 : K) 75 rnd.r (by norm_num) hr
  have hres := randf_mem (8 / 10 : K) 1 rnd.e (by norm_num) he
  have hrpos : (0 : K) < randf 1 75 rnd.r := lt_of_lt_of_le one_pos hrad.1
  refine ⟨_, rfl, rfl, hx, hy, hmass, hrad, hres, lt_of_lt_of_le one_pos hmass.1, hrpos,
    ⟨le_trans (by norm_num) hres.1, hres.2⟩, ?_⟩
  show (0 : K) < 31415 / 10000 * (randf 1 75 rnd.r / 10000) * (randf 1 75 rnd.r / 10000)
  positivity

/-- Witness for C11: all five draws are `5000`, palette index `7`, click at `(3, 4)`: the new ball
is at `(3, 4)`, at rest, with mass `38`, radius `38`, restitution `0.9`, colour `RED`. -/
theorem addOnClick_invariants_witness :
    ∃ b : Ball ℚ, ((s3World : BallSys ℚ).addOnClick midRandom Color.BLANK ⟨0, 0⟩ ⟨3, 4⟩).balls
        = s3World.balls ++ [b] ∧
      b.pos = ⟨3, 4⟩ ∧ b.vel = ⟨0, 0⟩ ∧ b.mass = 38 ∧ b.radiusVisual = 38 ∧ b.e = 9 / 10 ∧
      b.color = Color.RED := by
  obtain ⟨b, hb, hpos, -⟩ := addOnClick_invariants midRandom Color.BLANK (⟨0, 0⟩ : Vector2 ℚ)
    ⟨3, 4⟩ s3World (by decide) (by decide) (by decide) (by decide) (by decide)
  refine ⟨b, hb, hpos, ?_⟩
  have hb2 : ((s3World : BallSys ℚ).addOnClick midRandom Color.BLANK ⟨0, 0⟩ ⟨3, 4⟩).balls
      = s3World.balls ++ [Ball.new ⟨3, 4⟩ ⟨randf (-100) 100 5000, randf (-100) 100 5000⟩
          (randf 1 75 5000) (randf 1 75 5000) Color.RED (randf (8 / 10) 1 5000)
          Ball.defaultG ⟨0, 0⟩] := rfl
  rw [hb2] at hb
  have := List.append_cancel_left hb
  simp only [List.cons.injEq, and_true] at this
  subst this
  norm_num [Ball.new, randf]

/-! ## What a tick leaves alone -/

/-- A property kept by every step of a left fold is kept by the fold. -/
theorem foldl_invariant_mem {α β : Type} (P : β → Prop) (f : β → α → β) (l : List α)
    (hstep : ∀ b, ∀ a ∈ l, P b → P (f b a)) (init : β) (h0 : P init) :
    P (l.foldl f init) := by
  induction l generalizing init with
  | nil => exact h0
  | cons a rest ih =>
    rw [List.foldl_cons]
    exact ih (fun b x hx hb => hstep b x (List.mem_cons_of_mem _ hx) hb) _
      (hstep init a (List.mem_cons_self _ _) h0)

/-- Writing back the element that is already there changes nothing. -/
theorem set_eq_self {α : Type} (l : List α) (i : Nat) (a : α) (h : l[i]? = some a) :
    l.set i a = l := by
  induction l generalizing i with
  | nil => rfl
  | cons x rest ih =>
    cases i with
    | zero =>
      simp only [List.getElem?_cons_zero, Option.some.injEq] at h
      rw [List.set_cons_zero, h]
    | succ n =>
      simp only [List.getElem?_cons_succ] at h
      rw [List.set_cons_succ, ih n h]

/-- The vertical block keeps the constants of the body. -/
theorem collideVertical_constants (b : Ball K) (H : K) :
    bodyConstants (b.collideVertical H) = bodyConstants b := by
  unfold Ball.collideVertical
  dsimp only
  split_ifs <;> rfl

/-- The horizontal block keeps the constants of the body. -/
theorem collideHorizontal_constants (b : Ball K) (W : K) :
    bodyConstants (b.collideHorizontal W) = bodyConstants b := by
  unfold Ball.collideHorizontal
  split_ifs <;> rfl

/-- One `Ball::draw` keeps the constants of the body. -/
theorem Ball_draw_constants (b : Ball K) : bodyConstants b.draw = bodyConstants b := by
  unfold Ball.draw Ball.CollisionHandling
  rw [collideHorizontal_constants, collideVertical_constants]
  rfl

/-- The loop body of `ballsCollision` keeps the constants of both bodies. -/
theorem collidePair_constants (sqrt : K → K) (bi bj : Ball K) :
    bodyConstants (collidePair sqrt bi bj).1 = bodyConstants bi ∧
    bodyConstants (collidePair sqrt bi bj).2 = bodyConstants bj := by
  unfold collidePair
  dsimp only
  split_ifs <;> exact ⟨rfl, rfl⟩

/-- One iteration of the inner loop keeps the constants of every body, in place. -/
theorem collideAt_constants (sqrt : K → K) (i j : Nat) (balls : List (Ball K)) :
    (collideAt sqrt i j balls).map bodyConstants = balls.map bodyConstants := by
  unfold collideAt
  split
  · next bi bj hi hj =>
    obtain ⟨h1, h2⟩ := collidePair_constants sqrt bi bj
    dsimp only
    rw [List.map_set, List.map_set, h1, h2]
    have e1 : (balls.map bodyConstants).set i (bodyConstants bi) = balls.map bodyConstants :=
      set_eq_self _ _ _ (by rw [List.getElem?_map, hi]; rfl)
    rw [e1]
    exact set_eq_self _ _ _ (by rw [List.getElem?_map, hj]; rfl)
  · rfl

/-- One pass of `ballsCollision` keeps the constants of every body, in place. -/
theorem ballsCollision_constants (sqrt : K → K) (s : BallSys K) :
    (s.ballsCollision sqrt).balls.map bodyConstants = s.balls.map bodyConstants := by
  unfold BallSys.ballsCollision
  dsimp only
  refine foldl_invariant_mem (fun bs => bs.map bodyConstants = s.balls.map bodyConstants)
    _ _ ?_ s.balls rfl
  intro bs i _ hbs
  refine foldl_invariant_mem (fun bs => bs.map bodyConstants = s.balls.map bodyConstants)
    _ _ ?_ bs hbs
  intro bs2 j _ hbs2
  show (collideAt sqrt i j bs2).map bodyConstants = _
  rw [collideAt_constants, hbs2]

/-- The preset step keeps the constants of every body, in place. -/
theorem changeEnviroment_constants (inp : Input K) (s : BallSys K) :
    (s.changeEnviroment inp).balls.map bodyConstants = s.balls.map bodyConstants := by
  unfold BallSys.changeEnviroment
  dsimp only
  rw [List.map_map]
  rfl

/-- The wind step does not touch the balls. -/
theorem changeWind_balls (sin : K → K) (inp : Input K) (s : BallSys K) :
    (s.changeWind sin inp).balls = s.balls := by
  unfold BallSys.changeWind
  dsimp only
  split_ifs <;> rfl

/-- The attractor keeps the constants of every body, in place. -/
theorem attractionPoint_constants (sqrt : K → K) (inp : Input K) (q : Vector2 K)
    (s : BallSys K) :
    (s.attractionPoint sqrt inp q).balls.map bodyConstants = s.balls.map bodyConstants := by
  unfold BallSys.attractionPoint
  split_ifs
  · dsimp only
    rw [List.map_map]
    rfl
  · rfl

/-- C12 (a tick keeps the bodies). `BallSys::draw`, each of its parts (`changeEnviroment`,
`ballsCollision`, `changeWind`, `Ball::draw` on a ball) and `attractionPoint` leave the number of
balls unchanged and leave `(mass, radiusVisual, e)` of every ball unchanged, position by
position in the list. -/
theorem tick_preserves_bodies (sqrt sin : K → K) (inp : Input K) (q : Vector2 K)
    (s : BallSys K) :
    ((s.draw sqrt sin inp).balls.length = s.balls.length ∧
      (s.draw sqrt sin inp).balls.map bodyConstants = s.balls.map bodyConstants) ∧
    ((s.changeEnviroment inp).balls.length = s.balls.length ∧
      (s.changeEnviroment inp).balls.map bodyConstants = s.balls.map bodyConstants) ∧
    ((s.ballsCollision sqrt).balls.length = s.balls.length ∧
      (s.ballsCollision sqrt).balls.map bodyConstants = s.balls.map bodyConstants) ∧
    ((s.changeWind sin inp).balls.length = s.balls.length ∧
      (s.changeWind sin inp).balls.map bodyConstants = s.balls.map bodyConstants) ∧
    (∀ b : Ball K, bodyConstants b.draw = bodyConstants b) ∧
    ((s.attractionPoint sqrt inp q).balls.length = s.balls.length ∧
      (s.attractionPoint sqrt inp q).balls.map bodyConstants = s.balls.map bodyConstants) := by
  have len : ∀ l1 l2 : List (Ball K), l1.map bodyConstants = l2.map bodyConstants →
      l1.length = l2.length ∧ l1.map bodyConstants = l2.map bodyConstants := by
    intro l1 l2 h
    refine ⟨?_, h⟩
    have := congrArg List.length h
    simpa using this
  have hdraw : (s.draw sqrt sin inp).balls.map bodyConstants = s.balls.map bodyConstants := by
    unfold BallSys.draw
    dsimp only
    rw [List.map_map, changeWind_balls]
    have hfun : (bodyConstants ∘
        (((s.changeEnviroment inp).ballsCollision sqrt).changeWind sin inp).drawBall)
        = (bodyConstants : Ball K → K × K × K) := by
      funext b
      show bodyConstants (Ball.draw _) = bodyConstants b
      rw [Ball_draw_constants]
      rfl
    rw [hfun, ballsCollision_constants, changeEnviroment_constants]
  refine ⟨len _ _ hdraw, len _ _ (changeEnviroment_constants inp s),
    len _ _ (ballsCollision_constants sqrt s), len _ _ ?_, Ball_draw_constants,
    len _ _ (attractionPoint_constants sqrt inp q s)⟩
  rw [changeWind_balls]

/-! ## Wind modes -/

/-- The mode counter and the wind after one `changeWind`, for a counter in `{0, 1, 2}`. -/
theorem changeWind_mode (sin : K → K) (inp : Input K) (s : BallSys K)
    (h0 : 0 ≤ s.is_enabled) (h2 : s.is_enabled ≤ 2) :
    (s.changeWind sin inp).is_enabled =
      (if inp.IsKeyPressed KeyboardKey.KEY_W then (s.is_enabled + 1) % 3 else s.is_enabled) ∧
    (s.changeWind sin inp).wind =
      specWind sin (s.changeWind sin inp).is_enabled inp.GetTime := by
  have hcases : s.is_enabled = 0 ∨ s.is_enabled = 1 ∨ s.is_enabled = 2 := by omega
  have hhalf : ∀ t : K, sin (t * 2⁻¹) * 15 = 15 * sin (0.5 * t) := by
    intro t
    have : t * 2⁻¹ = 0.5 * t := by norm_num; ring
    rw [this, mul_comm]
  unfold BallSys.changeWind specWind
  cases hW : inp.IsKeyPressed KeyboardKey.KEY_W <;>
    rcases hcases with h | h | h <;> simp [h, hhalf]

/-- The wind step leaves every field but the wind and the mode counter alone. -/
theorem changeWind_wind_irrelevant (sin : K → K) (inp : Input K) (s : BallSys K)
    (w : Vector2 K) (h0 : 0 ≤ s.is_enabled) (h2 : s.is_enabled ≤ 2) :
    BallSys.changeWind sin inp { s with wind := w } = s.changeWind sin inp := by
  have hcases : s.is_enabled = 0 ∨ s.is_enabled = 1 ∨ s.is_enabled = 2 := by omega
  unfold BallSys.changeWind
  cases hW : inp.IsKeyPressed KeyboardKey.KEY_W <;>
    rcases hcases with h | h | h <;> simp [h]

/-- The mode counter after one `draw` is the one computed by `changeWind`. -/
theorem draw_is_enabled (sqrt sin : K → K) (inp : Input K) (s : BallSys K) :
    (s.draw sqrt sin inp).is_enabled = (s.changeWind sin inp).is_enabled ∧
    (s.draw sqrt sin inp).wind = (s.changeWind sin inp).wind := by
  unfold BallSys.draw BallSys.changeWind
  dsimp only
  have e : ((s.changeEnviroment inp).ballsCollision sqrt).is_enabled = s.is_enabled := rfl
  have w : ((s.changeEnviroment inp).ballsCollision sqrt).wind = s.wind := rfl
  rw [e, w]
  split_ifs <;> exact ⟨rfl, rfl⟩
/-- The vertical block keeps `windAcc`. -/
theorem collideVertical_windAcc (b : Ball K) (H : K) :
    (b.collideVertical H).windAcc = b.windAcc := by
  unfold Ball.collideVertical
  dsimp only
  split_ifs <;> rfl

/-- The horizontal block keeps `windAcc`. -/
theorem collideHorizontal_windAcc (b : Ball K) (W : K) :
    (b.collideHorizontal W).windAcc = b.windAcc := by
  unfold Ball.collideHorizontal
  split_ifs <;> rfl

/-- One `Ball::draw` keeps `windAcc`. -/
theorem Ball_draw_windAcc (b : Ball K) : b.draw.windAcc = b.windAcc := by
  unfold Ball.draw Ball.CollisionHandling
  rw [collideHorizontal_windAcc, collideVertical_windAcc]
  rfl

/-- C13 (wind mode cycle). For a mode counter in `{0, 1, 2}`: after `changeWind` the counter is
again in `{0, 1, 2}`; a `W` press advances it `0 -> 1 -> 2 -> 0` and no press keeps it; three
presses return to the starting mode; the wind after the call is the wind of the specification
for the new mode, `(0,0)`, `(15,3)` or `(15 * sin(0.5 * t), 0)`; the result of `BallSys::draw`
does not depend on the wind stored before the call, and every ball leaves `draw` with
`windAcc` equal to the wind of the new mode.  From construction (mode `0`) on, the counter is in
`{0, 1, 2}` after any number of frames. -/
theorem changeWind_three_state_cycle (sqrt sin : K → K) (inp : Input K) (s : BallSys K)
    (h0 : 0 ≤ s.is_enabled) (h2 : s.is_enabled ≤ 2) :
    (0 ≤ (s.changeWind sin inp).is_enabled ∧ (s.changeWind sin inp).is_enabled ≤ 2) ∧
    (inp.IsKeyPressed KeyboardKey.KEY_W = true →
      (s.changeWind sin inp).is_enabled = (s.is_enabled + 1) % 3) ∧
    (inp.IsKeyPressed KeyboardKey.KEY_W = false →
      (s.changeWind sin inp).is_enabled = s.is_enabled) ∧
    (∀ i2 i3 : Input K, inp.IsKeyPressed KeyboardKey.KEY_W = true →
      i2.IsKeyPressed KeyboardKey.KEY_W = true → i3.IsKeyPressed KeyboardKey.KEY_W = true →
      (((s.changeWind sin inp).changeWind sin i2).changeWind sin i3).is_enabled
        = s.is_enabled) ∧
    (s.changeWind sin inp).wind = specWind sin (s.changeWind sin inp).is_enabled inp.GetTime ∧
    (∀ w : Vector2 K, BallSys.draw sqrt sin inp { s with wind := w } = s.draw sqrt sin inp) ∧
    (∀ b ∈ (s.draw sqrt sin inp).balls,
      b.windAcc = specWind sin (s.draw sqrt sin inp).is_enabled inp.GetTime) ∧
    (∀ (balls : List (Ball K)) (g0 rho0 : K) (inps : List (Input K)),
      0 ≤ (inps.foldl (fun st i => st.draw sqrt sin i) (BallSys.new balls g0 rho0)).is_enabled ∧
      (inps.foldl (fun st i => st.draw sqrt sin i) (BallSys.new balls g0 rho0)).is_enabled
        ≤ 2) := by
  have hrange : ∀ (t : BallSys K) (i : Input K), 0 ≤ t.is_enabled → t.is_enabled ≤ 2 →
      0 ≤ (t.changeWind sin i).is_enabled ∧ (t.changeWind sin i).is_enabled ≤ 2 := by
    intro t i a b
    rw [(changeWind_mode sin i t a b).1]
    split_ifs <;> omega
  obtain ⟨hmode, hwind⟩ := changeWind_mode sin inp s h0 h2
  refine ⟨hrange s inp h0 h2, ?_, ?_, ?_, hwind, ?_, ?_, ?_⟩
  · intro hW
    rw [hmode, if_pos hW]
  · intro hW
    rw [hmode, hW]
    rfl
  · intro i2 i3 hW1 hW2 hW3
    obtain ⟨a1, b1⟩ := hrange s inp h0 h2
    obtain ⟨a2, b2⟩ := hrange _ i2 a1 b1
    rw [(changeWind_mode sin i3 _ a2 b2).1, if_pos hW3, (changeWind_mode sin i2 _ a1 b1).1,
      if_pos hW2, hmode, if_pos hW1]
    omega
  · intro w
    have key : ((BallSys.changeEnviroment inp { s with wind := w }).ballsCollision
        sqrt).changeWind sin inp = ((s.changeEnviroment inp).ballsCollision sqrt).changeWind
        sin inp :=
      changeWind_wind_irrelevant sin inp ((s.changeEnviroment inp).ballsCollision sqrt) w h0 h2
    exact congrArg
      (fun s3 : BallSys K => ({ s3 with balls := s3.balls.map s3.drawBall } : BallSys K)) key
  · intro b hb
    rw [(draw_is_enabled sqrt sin inp s).1, ← hwind]
    unfold BallSys.draw at hb
    simp only [List.mem_map] at hb
    obtain ⟨c, -, rfl⟩ := hb
    unfold BallSys.drawBall
    dsimp only
    rw [Ball_draw_windAcc]
    exact (draw_is_enabled sqrt sin inp s).2
  · intro balls g0 rho0 inps
    refine foldl_invariant_mem (fun t : BallSys K => 0 ≤ t.is_enabled ∧ t.is_enabled ≤ 2)
      _ inps ?_ _ ⟨le_refl _, (by show (0 : Int) ≤ 2; decide)⟩
    intro t i _ ht
    show 0 ≤ (t.draw sqrt sin i).is_enabled ∧ (t.draw sqrt sin i).is_enabled ≤ 2
    rw [(draw_is_enabled sqrt sin i t).1]
    exact hrange t i ht.1 ht.2

/-- Witness for C13: from the fresh system, one `W` press gives mode `1` with wind `(15, 3)`,
and three presses give mode `0` again. -/
theorem changeWind_three_state_cycle_witness :
    ((s3World : BallSys ℝ).changeWind Real.sin (windKeyInput 0)).is_enabled = 1 ∧
    ((s3World : BallSys ℝ).changeWind Real.sin (windKeyInput 0)).wind = ⟨15, 3⟩ ∧
    ((((s3World : BallSys ℝ).changeWind Real.sin (windKeyInput 0)).changeWind Real.sin
      (windKeyInput 1)).changeWind Real.sin (windKeyInput 2)).is_enabled = 0 := by
  have h := changeWind_three_state_cycle Real.sqrt Real.sin (windKeyInput 0)
    (s3World : BallSys ℝ) (le_refl _) (by decide)
  have h1 : ((s3World : BallSys ℝ).changeWind Real.sin (windKeyInput 0)).is_enabled = 1 :=
    h.2.1 rfl
  refine ⟨h1, ?_, h.2.2.2.1 (windKeyInput 1) (windKeyInput 2) rfl rfl rfl⟩
  rw [h.2.2.2.2.1, h1]
  simp [specWind]

/-! ## The palette index -/

/-- C14 (palette index), the code at the failing input: the table has 25 entries, `25` is a
possible result of `GetRandomValue(0, 25)`, it is not a valid index of the table, and the ball
appended by `addOnClick` then carries whatever lies behind the array as its colour. -/
theorem addOnClick_palette_index_past_end :
    (allColors : List Color).length = 25 ∧
    lastIndexRandom.colorIndex ≤ 25 ∧
    ¬ (lastIndexRandom.colorIndex < (allColors : List Color).length) ∧
    (allColors : List Color)[lastIndexRandom.colorIndex]? = none ∧
    ∀ oob : Color,
      ((s3World : BallSys ℚ).addOnClick lastIndexRandom oob ⟨0, 0⟩ ⟨3, 4⟩).balls.map
        (fun b => b.color) = [Color.ORANGE, oob] := by
  refine ⟨rfl, by decide, by decide, rfl, ?_⟩
  intro oob
  rfl

/-! ## The attractor impulse -/

/-- The square root of a square is the absolute value. -/
theorem isSqrt_mul_self (sqrt : K → K) (hs : IsSqrt sqrt) (x : K) : sqrt (x * x) = abs x := by
  obtain ⟨h0, h2⟩ := hs (x * x) (mul_self_nonneg x)
  have h3 : sqrt (x * x) * sqrt (x * x) = abs x * abs x := by rw [h2, abs_mul_abs_self]
  exact (mul_self_inj h0 (abs_nonneg x)).mp h3

/-- The length of a multiple of the computed normal is the absolute value of the factor. -/
theorem length_scale_normalOf (sqrt : K → K) (hs : IsSqrt sqrt) (d : Vector2 K) (c : K) :
    Vector2Length sqrt (Vector2Scale (normalOf d (Vector2Length sqrt d)) c) = abs c := by
  have hn := normalOf_dot_self sqrt hs d
  unfold Vector2DotProduct at hn
  have harg : (Vector2Scale (normalOf d (Vector2Length sqrt d)) c).x
        * (Vector2Scale (normalOf d (Vector2Length sqrt d)) c).x
      + (Vector2Scale (normalOf d (Vector2Length sqrt d)) c).y
        * (Vector2Scale (normalOf d (Vector2Length sqrt d)) c).y = c * c := by
    unfold Vector2Scale
    dsimp only
    linear_combination (c * c) * hn
  show sqrt _ = abs c
  rw [harg]
  exact isSqrt_mul_self sqrt hs c

/-- C15 (attractor impulse). For a ball of the system with `mass > 0` and any pointer `q`: when
the right mouse button is held, `attractionPoint` changes the velocity of the ball by exactly
`-(s * 1000 / m) * n`, with `n = (pos - q) / |pos - q|` if `|pos - q| > 0.001` and `n = (1, 0)`
otherwise, and `s = -1` with left shift held, `+1` without; the change has length `1000 / m`;
the position is unchanged; and with the opposite shift state the change is the exact negation.
When the button is not held, the system is unchanged. -/
theorem attractionPoint_impulse (sqrt : K → K) (hs : IsSqrt sqrt) (inp : Input K)
    (q : Vector2 K) (s : BallSys K) (i : Nat) (b : Ball K)
    (hb : s.balls[i]? = some b) (hm : 0 < b.mass) :
    (inp.IsMouseButtonDown MouseButton.MOUSE_BUTTON_RIGHT = true →
      ∃ b1, (s.attractionPoint sqrt inp q).balls[i]? = some b1 ∧
        Vector2Subtract b1.vel b.vel =
          Vector2Scale
            (if 1 / 1000 < Vector2Length sqrt (Vector2Subtract b.pos q) then
              ⟨(b.pos.x - q.x) / Vector2Length sqrt (Vector2Subtract b.pos q),
               (b.pos.y - q.y) / Vector2Length sqrt (Vector2Subtract b.pos q)⟩
             else ⟨1, 0⟩)
            (-((if inp.IsKeyDown KeyboardKey.KEY_LEFT_SHIFT then -1 else 1) * 1000 / b.mass)) ∧
        Vector2Length sqrt (Vector2Subtract b1.vel b.vel) = 1000 / b.mass ∧
        b1.pos = b.pos ∧
        (∀ inp2 : Input K,
          inp2.IsKeyDown KeyboardKey.KEY_LEFT_SHIFT = !inp.IsKeyDown KeyboardKey.KEY_LEFT_SHIFT →
          Vector2Subtract (attractBall sqrt inp2 q b).vel b.vel =
            Vector2Scale (Vector2Subtract b1.vel b.vel) (-1))) ∧
    (inp.IsMouseButtonDown MouseButton.MOUSE_BUTTON_RIGHT = false →
      s.attractionPoint sqrt inp q = s) := by
  constructor
  · intro hheld
    refine ⟨attractBall sqrt inp q b, ?_, ?_, ?_, rfl, ?_⟩
    · simp [BallSys.attractionPoint, hheld, List.getElem?_map, hb]
    · rw [attractBall_dv]
      have hn : normalOf (Vector2Subtract b.pos q) (Vector2Length sqrt (Vector2Subtract b.pos q))
          = (if 1 / 1000 < Vector2Length sqrt (Vector2Subtract b.pos q) then
              ⟨(b.pos.x - q.x) / Vector2Length sqrt (Vector2Subtract b.pos q),
               (b.pos.y - q.y) / Vector2Length sqrt (Vector2Subtract b.pos q)⟩
             else ⟨1, 0⟩) := rfl
      rw [hn]
      congr 1
      ring
    · rw [attractBall_dv, length_scale_normalOf sqrt hs, abs_neg]
      have hpos : 0 < 1000 / b.mass := by positivity
      have hplus : abs ((1 : K) * 1000 * (1 / b.mass)) = 1000 / b.mass := by
        rw [one_mul, ← div_eq_mul_one_div, abs_of_pos hpos]
      have hminus : abs ((-1 : K) * 1000 * (1 / b.mass)) = 1000 / b.mass := by
        rw [neg_one_mul, neg_mul, abs_neg, ← div_eq_mul_one_div, abs_of_pos hpos]
      cases inp.IsKeyDown KeyboardKey.KEY_LEFT_SHIFT
      · exact hplus
      · exact hminus
    · intro inp2 h2
      rw [attractBall_dv, attractBall_dv, h2]
      unfold Vector2Scale
      cases inp.IsKeyDown KeyboardKey.KEY_LEFT_SHIFT <;> simp
  · intro hnot
    unfold BallSys.attractionPoint
    rw [hnot]
    rfl
/-- Witness for C15: scenario S4 with the invert modifier: the velocity changes by `(100, 0)`,
of length `1000 / 10 = 100`, and the position stays. -/
theorem attractionPoint_impulse_witness :
    ∃ b1 : Ball ℝ,
      ((BallSys.new [s4Ball] 0 0).attractionPoint Real.sqrt attractInvertedInput
        s4Pointer).balls[0]? = some b1 ∧
      Vector2Subtract b1.vel (s4Ball : Ball ℝ).vel = ⟨100, 0⟩ ∧
      Vector2Length Real.sqrt (Vector2Subtract b1.vel (s4Ball : Ball ℝ).vel) = 100 ∧
      b1.pos = (s4Ball : Ball ℝ).pos := by
  obtain ⟨b1, h1, h2, h3, h4, -⟩ :=
    (attractionPoint_impulse Real.sqrt isSqrt_real attractInvertedInput s4Pointer
      (BallSys.new [(s4Ball : Ball ℝ)] 0 0) 0 s4Ball rfl (by norm_num [s4Ball, Ball.new])).1 rfl
  refine ⟨b1, h1, ?_, ?_, h4⟩
  · rw [h2, s4_dist]
    norm_num [Vector2Scale, s4Ball, s4Pointer, Ball.new, attractInvertedInput]
  · rw [h3]
    norm_num [s4Ball, Ball.new]

/-! ## The drag cross-section -/

/-- C17 (amended). For every constructed `Ball` with radius argument `r > 0`:
`realRadius = r / 10000`, and `A = 3.1415 * realRadius^2`, with the literal `3.1415` of the
source in the place of pi; `A > 0`, and `A` is below `pi * realRadius^2` by less than
`0.0001 * realRadius^2`. -/
theorem Ball_new_cross_section (Pos Vel : Vector2 ℝ) (mass r : ℝ) (color : Color)
    (restitution g : ℝ) (w : Vector2 ℝ) (hr : 0 < r) :
    (Ball.new Pos Vel mass r color restitution g w).radiusVisual = r ∧
    (Ball.new Pos Vel mass r color restitution g w).realRadius = r / 10000 ∧
    (Ball.new Pos Vel mass r color restitution g w).A
      = 3.1415 * (Ball.new Pos Vel mass r color restitution g w).realRadius ^ 2 ∧
    0 < (Ball.new Pos Vel mass r color restitution g w).A ∧
    (Ball.new Pos Vel mass r color restitution g w).A
      < Real.pi * (Ball.new Pos Vel mass r color restitution g w).realRadius ^ 2 ∧
    Real.pi * (Ball.new Pos Vel mass r color restitution g w).realRadius ^ 2
      < (Ball.new Pos Vel mass r color restitution g w).A
        + 0.0001 * (Ball.new Pos Vel mass r color restitution g w).realRadius ^ 2 := by
  obtain ⟨hrr, hA⟩ := Ball_new_A Pos Vel mass r color restitution g w
  have hsq : 0 < (r / 10000) ^ 2 := by positivity
  have hlo := Real.pi_gt_d4
  have hhi := Real.pi_lt_d4
  rw [hA, hrr]
  refine ⟨rfl, rfl, by norm_num; ring, by positivity, ?_, ?_⟩
  · have := mul_lt_mul_of_pos_right hlo hsq
    calc 31415 / 10000 * (r / 10000) * (r / 10000) = 3.1415 * (r / 10000) ^ 2 := by
          norm_num; ring
      _ < Real.pi * (r / 10000) ^ 2 := this
  · have := mul_lt_mul_of_pos_right hhi hsq
    calc Real.pi * (r / 10000) ^ 2 < 3.1416 * (r / 10000) ^ 2 := this
      _ = 31415 / 10000 * (r / 10000) * (r / 10000) + 0.0001 * (r / 10000) ^ 2 := by
          norm_num; ring

/-- Counterexample for C17 as stated: the ball constructed with `r = 10000` has `realRadius = 1`
and `A = 3.1415`, which is not `pi * realRadius^2 = pi`. -/
theorem cross_section_pi_counterexample :
    (0 : ℝ) < 10000 ∧
    (Ball.new (⟨0, 0⟩ : Vector2 ℝ) ⟨0, 0⟩ 1 10000 Color.ORANGE 1 Ball.defaultG ⟨0, 0⟩).realRadius
      = 1 ∧
    (Ball.new (⟨0, 0⟩ : Vector2 ℝ) ⟨0, 0⟩ 1 10000 Color.ORANGE 1 Ball.defaultG ⟨0, 0⟩).A
      = 3.1415 ∧
    ¬ ((Ball.new (⟨0, 0⟩ : Vector2 ℝ) ⟨0, 0⟩ 1 10000 Color.ORANGE 1 Ball.defaultG ⟨0, 0⟩).A
      = Real.pi *
        (Ball.new (⟨0, 0⟩ : Vector2 ℝ) ⟨0, 0⟩ 1 10000 Color.ORANGE 1 Ball.defaultG
          ⟨0, 0⟩).realRadius ^ 2) := by
  obtain ⟨hrr, hA⟩ := Ball_new_A (⟨0, 0⟩ : Vector2 ℝ) ⟨0, 0⟩ 1 10000 Color.ORANGE 1
    Ball.defaultG ⟨0, 0⟩
  have hlo := Real.pi_gt_d4
  rw [hA, hrr]
  refine ⟨by norm_num, by norm_num, by norm_num, ?_⟩
  intro h
  norm_num at h
  linarith

/-- Witness for the amended C17: the ball of scenario S1, `r = 10`. -/
theorem Ball_new_cross_section_witness :
    (s1Ball : Ball ℝ).realRadius = 10 / 10000 ∧ 0 < (s1Ball : Ball ℝ).A ∧
    (s1Ball : Ball ℝ).A < Real.pi * (s1Ball : Ball ℝ).realRadius ^ 2 := by
  have h := Ball_new_cross_section (⟨0, -500⟩ : Vector2 ℝ) ⟨0, 0⟩ 5 10 Color.ORANGE (8 / 10)
    Ball.defaultG ⟨0, 0⟩ (by norm_num)
  exact ⟨h.2.1, h.2.2.2.1, h.2.2.2.2.1⟩

/-! ## Momentum and restitution of the pairwise impulse -/

/-- For positive masses the impulse scalar times `1/m_i + 1/m_j` is `-(1 + e_avg) * speed`. -/
theorem pairImpulseScalar_mul (sqrt : K → K) (bi bj : Ball K)
    (hmi : 0 < bi.mass) (hmj : 0 < bj.mass) :
    pairImpulseScalar sqrt bi bj * (1 / bi.mass + 1 / bj.mass) =
      -(1 + pairAverageE bi bj) * pairSpeedNormal sqrt bi bj := by
  have hpos : 0 < 1 / bi.mass + 1 / bj.mass := by positivity
  unfold pairImpulseScalar
  dsimp only
  exact div_mul_cancel₀ _ (ne_of_gt hpos)

/-- The loop body keeps `m_i * v_i + m_j * v_j`, per component. -/
theorem collidePair_momentum (sqrt : K → K) (bi bj : Ball K)
    (hmi : 0 < bi.mass) (hmj : 0 < bj.mass) :
    (collidePair sqrt bi bj).1.mass * (collidePair sqrt bi bj).1.vel.x
        + (collidePair sqrt bi bj).2.mass * (collidePair sqrt bi bj).2.vel.x
      = bi.mass * bi.vel.x + bj.mass * bj.vel.x ∧
    (collidePair sqrt bi bj).1.mass * (collidePair sqrt bi bj).1.vel.y
        + (collidePair sqrt bi bj).2.mass * (collidePair sqrt bi bj).2.vel.y
      = bi.mass * bi.vel.y + bj.mass * bj.vel.y := by
  have hi := ne_of_gt hmi
  have hj := ne_of_gt hmj
  unfold collidePair
  dsimp only
  split_ifs
  · exact ⟨rfl, rfl⟩
  · unfold Vector2Subtract Vector2Add Vector2Scale
    dsimp only
    constructor <;> field_simp <;> ring
  · exact ⟨rfl, rfl⟩

/-- Replacing the element at index `i` changes a mapped sum by the difference of the two
summands. -/
theorem sum_map_set {α : Type} (f : α → K) (l : List α) (i : Nat) (a a1 : α)
    (h : l[i]? = some a) :
    ((l.set i a1).map f).sum = (l.map f).sum - f a + f a1 := by
  induction l generalizing i with
  | nil => simp at h
  | cons x rest ih =>
    cases i with
    | zero =>
      simp only [List.getElem?_cons_zero, Option.some.injEq] at h
      subst h
      simp only [List.set_cons_zero, List.map_cons, List.sum_cons]
      ring
    | succ n =>
      simp only [List.getElem?_cons_succ] at h
      simp only [List.set_cons_succ, List.map_cons, List.sum_cons, ih n h]
      ring
/-- Balls with the same constants as balls of positive mass have positive mass. -/
theorem mass_pos_of_constants (l1 l2 : List (Ball K))
    (h : l1.map bodyConstants = l2.map bodyConstants) (hpos : ∀ b ∈ l2, 0 < b.mass) :
    ∀ b ∈ l1, 0 < b.mass := by
  intro b hb
  have hmem : bodyConstants b ∈ l2.map bodyConstants := by
    rw [← h]
    exact List.mem_map_of_mem _ hb
  obtain ⟨c, hc, hcb⟩ := List.mem_map.mp hmem
  have hmass : c.mass = b.mass := congrArg Prod.fst hcb
  rw [← hmass]
  exact hpos c hc

/-- One iteration of the inner loop, on two different indices, keeps the total momentum. -/
theorem collideAt_momentum (sqrt : K → K) (i j : Nat) (hij : i ≠ j) (balls : List (Ball K))
    (hpos : ∀ b ∈ balls, 0 < b.mass) :
    totalMomentum (collideAt sqrt i j balls) = totalMomentum balls := by
  unfold collideAt
  split
  · next bi bj hi hj =>
    have hmi : 0 < bi.mass := hpos bi (List.getElem?_mem hi)
    have hmj : 0 < bj.mass := hpos bj (List.getElem?_mem hj)
    obtain ⟨hx, hy⟩ := collidePair_momentum sqrt bi bj hmi hmj
    have hj2 : (balls.set i (collidePair sqrt bi bj).1)[j]? = some bj := by
      rw [List.getElem?_set_ne hij]
      exact hj
    unfold totalMomentum
    dsimp only
    rw [sum_map_set _ _ j bj _ hj2, sum_map_set _ _ i bi _ hi,
      sum_map_set _ _ j bj _ hj2, sum_map_set _ _ i bi _ hi]
    rw [Vector2.mk.injEq]
    constructor
    · linear_combination hx
    · linear_combination hy
  · rfl

/-- C18 (momentum). For every pair of balls with positive masses, whatever the restitutions and
whichever branch is taken (no overlap, separating, approaching, fallback normal), the loop body
of `ballsCollision` leaves `m_i * v_i + m_j * v_j` unchanged in both components; and one full
pass of `ballsCollision` over any world whose balls all have positive mass leaves the total
momentum unchanged. -/
theorem ballsCollision_momentum (sqrt : K → K) (bi bj : Ball K)
    (hmi : 0 < bi.mass) (hmj : 0 < bj.mass) :
    totalMomentum [(collidePair sqrt bi bj).1, (collidePair sqrt bi bj).2]
      = totalMomentum [bi, bj] ∧
    (∀ s : BallSys K, (∀ b ∈ s.balls, 0 < b.mass) →
      totalMomentum (s.ballsCollision sqrt).balls = totalMomentum s.balls) := by
  constructor
  · obtain ⟨hx, hy⟩ := collidePair_momentum sqrt bi bj hmi hmj
    unfold totalMomentum
    simp only [List.map_cons, List.map_nil, List.sum_cons, List.sum_nil, add_zero]
    rw [hx, hy]
  · intro s hpos
    unfold BallSys.ballsCollision
    dsimp only
    have hinv := foldl_invariant_mem
      (fun bs : List (Ball K) => totalMomentum bs = totalMomentum s.balls ∧
        bs.map bodyConstants = s.balls.map bodyConstants)
      (fun balls i => (List.range' (i + 1) (s.balls.length - (i + 1))).foldl
        (fun balls j => collideAt sqrt i j balls) balls)
      (List.range s.balls.length) ?_ s.balls ⟨rfl, rfl⟩
    · exact hinv.1
    · intro bs i _ hbs
      refine foldl_invariant_mem
        (fun bs : List (Ball K) => totalMomentum bs = totalMomentum s.balls ∧
          bs.map bodyConstants = s.balls.map bodyConstants)
        (fun balls j => collideAt sqrt i j balls) _ ?_ bs hbs
      intro bs2 j hj hbs2
      have hlt : i ≠ j := by
        have := (List.mem_range'_1.mp hj).1
        omega
      constructor
      · show totalMomentum (collideAt sqrt i j bs2) = _
        rw [collideAt_momentum sqrt i j hlt bs2
          (mass_pos_of_constants bs2 s.balls hbs2.2 hpos)]
        exact hbs2.1
      · show (collideAt sqrt i j bs2).map bodyConstants = _
        rw [collideAt_constants]
        exact hbs2.2

/-- The centres of the unequal-mass pair are at distance `16`. -/
theorem heavyPair_dist : pairDist Real.sqrt (heavyPairA : Ball ℝ) heavyPairB = 16 := by
  unfold pairDist Vector2Length pairDistanceVec Vector2Subtract
  exact real_sqrt_eq _ 16 (by norm_num) (by norm_num [heavyPairA, heavyPairB, Ball.new])

/-- The normal of the unequal-mass pair is `(1, 0)`. -/
theorem heavyPair_normal : pairNormal Real.sqrt (heavyPairA : Ball ℝ) heavyPairB = ⟨1, 0⟩ := by
  unfold pairNormal
  rw [heavyPair_dist]
  norm_num [normalOf, pairDistanceVec, Vector2Subtract, heavyPairA, heavyPairB, Ball.new]

/-- The unequal-mass pair closes at relative normal speed `-12`. -/
theorem heavyPair_speed : pairSpeedNormal Real.sqrt (heavyPairA : Ball ℝ) heavyPairB = -12 := by
  unfold pairSpeedNormal
  rw [heavyPair_normal]
  norm_num [Vector2DotProduct, Vector2Subtract, heavyPairA, heavyPairB, Ball.new]

/-- Witness for C18: masses `1` and `3`, velocities `(10, 0)` and `(-2, 0)`: the total momentum
after one pass of `ballsCollision` is `(4, 0)`, as before. -/
theorem ballsCollision_momentum_witness :
    totalMomentum ((BallSys.new [(heavyPairA : Ball ℝ), heavyPairB] 0 0).ballsCollision
      Real.sqrt).balls = ⟨4, 0⟩ := by
  have h := (ballsCollision_momentum Real.sqrt (heavyPairA : Ball ℝ) heavyPairB
    (by norm_num [heavyPairA, Ball.new]) (by norm_num [heavyPairB, Ball.new])).2
    (BallSys.new [heavyPairA, heavyPairB] 0 0)
    (by
      intro b hb
      simp only [BallSys.new, List.mem_cons, List.mem_singleton, List.not_mem_nil,
        or_false] at hb
      rcases hb with h | h <;> subst h
      · norm_num [heavyPairA, Ball.new]
      · norm_num [heavyPairB, Ball.new])
  rw [h]
  norm_num [totalMomentum, BallSys.new, heavyPairA, heavyPairB, Ball.new]
/-- C19 (restitution law). For an overlapping pair with positive masses and
`(v_j - v_i) . n <= 0`, after the loop body of `ballsCollision`:
`(v_j' - v_i') . n = -e_avg * ((v_j - v_i) . n)` with `e_avg = (e_i + e_j) / 2`, the tangential
component of each velocity is unchanged, and for `0 <= e_avg` the pair no longer approaches
along `n`. -/
theorem collidePair_restitution_law (sqrt : K → K) (hs : IsSqrt sqrt) (bi bj : Ball K)
    (hmi : 0 < bi.mass) (hmj : 0 < bj.mass)
    (hov : pairDist sqrt bi bj * pairDist sqrt bi bj < pairRadiiSum bi bj * pairRadiiSum bi bj)
    (hap : Vector2DotProduct (Vector2Subtract bj.vel bi.vel) (pairNormal sqrt bi bj) ≤ 0) :
    Vector2DotProduct
        (Vector2Subtract (collidePair sqrt bi bj).2.vel (collidePair sqrt bi bj).1.vel)
        (pairNormal sqrt bi bj)
      = -((bi.e + bj.e) / 2)
          * Vector2DotProduct (Vector2Subtract bj.vel bi.vel) (pairNormal sqrt bi bj) ∧
    Vector2DotProduct (collidePair sqrt bi bj).1.vel (tangentOf (pairNormal sqrt bi bj)) =
      Vector2DotProduct bi.vel (tangentOf (pairNormal sqrt bi bj)) ∧
    Vector2DotProduct (collidePair sqrt bi bj).2.vel (tangentOf (pairNormal sqrt bi bj)) =
      Vector2DotProduct bj.vel (tangentOf (pairNormal sqrt bi bj)) ∧
    (0 ≤ (bi.e + bj.e) / 2 →
      0 ≤ Vector2DotProduct
        (Vector2Subtract (collidePair sqrt bi bj).2.vel (collidePair sqrt bi bj).1.vel)
        (pairNormal sqrt bi bj)) := by
  have hap1 : pairSpeedNormal sqrt bi bj ≤ 0 := hap
  have hJ := pairImpulseScalar_mul sqrt bi bj hmi hmj
  have hn := pairNormal_dot_self sqrt hs bi bj
  have ht := dot_tangentOf (pairNormal sqrt bi bj)
  have hsn := pairSpeedNormal_eq sqrt bi bj
  have hrel : ∀ v w n : Vector2 K, Vector2DotProduct (Vector2Subtract v w) n
      = Vector2DotProduct v n - Vector2DotProduct w n := by
    intro v w n
    unfold Vector2DotProduct Vector2Subtract
    ring
  have hmain : Vector2DotProduct
      (Vector2Subtract (collidePair sqrt bi bj).2.vel (collidePair sqrt bi bj).1.vel)
      (pairNormal sqrt bi bj)
      = -((bi.e + bj.e) / 2) * pairSpeedNormal sqrt bi bj := by
    rw [collidePair_approaching sqrt bi bj hov hap1]
    dsimp only
    rw [hrel, dot_sub_scale, dot_add_scale, hn]
    have he : pairAverageE bi bj = (bi.e + bj.e) / 2 := rfl
    rw [he] at hJ
    linear_combination hJ - hsn
  refine ⟨hmain, ?_, ?_, ?_⟩
  · rw [collidePair_approaching sqrt bi bj hov hap1]
    dsimp only
    rw [dot_sub_scale, ht]
    ring
  · rw [collidePair_approaching sqrt bi bj hov hap1]
    dsimp only
    rw [dot_add_scale, ht]
    ring
  · intro he
    rw [hmain]
    have := mul_nonneg he (neg_nonneg.mpr hap1)
    linarith

/-- Witness for C19: masses `1` and `3`, restitutions `1/2` and `1`, closing speed `12`: the
relative normal velocity after the impulse is `3/4 * 12 = 9`. -/
theorem collidePair_restitution_law_witness :
    Vector2DotProduct
        (Vector2Subtract (collidePair Real.sqrt (heavyPairA : Ball ℝ) heavyPairB).2.vel
          (collidePair Real.sqrt (heavyPairA : Ball ℝ) heavyPairB).1.vel)
        (pairNormal Real.sqrt (heavyPairA : Ball ℝ) heavyPairB) = 9 := by
  have hsp : Vector2DotProduct
      (Vector2Subtract (heavyPairB : Ball ℝ).vel (heavyPairA : Ball ℝ).vel)
      (pairNormal Real.sqrt (heavyPairA : Ball ℝ) heavyPairB) = -12 := heavyPair_speed
  have h := (collidePair_restitution_law Real.sqrt isSqrt_real (heavyPairA : Ball ℝ) heavyPairB
    (by norm_num [heavyPairA, Ball.new]) (by norm_num [heavyPairB, Ball.new])
    (by rw [heavyPair_dist]; norm_num [pairRadiiSum, heavyPairA, heavyPairB, Ball.new])
    (by rw [hsp]; norm_num)).1
  rw [h, hsp]
  norm_num [heavyPairA, heavyPairB, Ball.new]

/-! ## Positional correction -/

/-- The positions after the loop body, for an overlapping pair (both branches). -/
theorem collidePair_pos (sqrt : K → K) (bi bj : Ball K)
    (hov : pairDist sqrt bi bj * pairDist sqrt bi bj < pairRadiiSum bi bj * pairRadiiSum bi bj) :
    (collidePair sqrt bi bj).1.pos = Vector2Subtract bi.pos
      (Vector2Scale (pairNormal sqrt bi bj) ((pairRadiiSum bi bj - pairDist sqrt bi bj) / 2)) ∧
    (collidePair sqrt bi bj).2.pos = Vector2Add bj.pos
      (Vector2Scale (pairNormal sqrt bi bj) ((pairRadiiSum bi bj - pairDist sqrt bi bj) / 2)) := by
  rcases lt_or_le 0 (pairSpeedNormal sqrt bi bj) with h | h
  · rw [collidePair_separating sqrt bi bj hov h]
    exact ⟨rfl, rfl⟩
  · rw [collidePair_approaching sqrt bi bj hov h]
    exact ⟨rfl, rfl⟩

/-- For `dist > 0.001` the distance vector is the normal scaled by the distance. -/
theorem normalOf_scale_dist (d : Vector2 K) (dist : K) (h : 1 / 1000 < dist) :
    Vector2Scale (normalOf d dist) dist = d := by
  have hne : dist ≠ 0 := ne_of_gt (lt_trans (by norm_num) h)
  unfold normalOf Vector2Scale
  rw [if_pos h]
  dsimp only
  rw [div_mul_cancel₀ _ hne, div_mul_cancel₀ _ hne]

/-- C20 (positional correction). For a pair with `0.001 < dist` and `dist^2 < sumR^2`, after
the loop body of `ballsCollision`: the distance between the centres is `|sumR|`, which is
`sumR = r_i + r_j` whenever `sumR >= 0` (in particular for positive radii); the midpoint of the
centres is unchanged (the two positions add up as before); `pos_i` has moved by
`-n * (sumR - dist) / 2` and `pos_j` by `+n * (sumR - dist) / 2`, where `n * dist = pos_j - pos_i`
is the line of centres, so for `sumR >= 0` both centres move by the length `(sumR - dist) / 2`;
no mass occurs in these expressions. -/
theorem collidePair_touching (sqrt : K → K) (hs : IsSqrt sqrt) (bi bj : Ball K)
    (hd : 1 / 1000 < pairDist sqrt bi bj)
    (hov : pairDist sqrt bi bj * pairDist sqrt bi bj < pairRadiiSum bi bj * pairRadiiSum bi bj) :
    Vector2Length sqrt
        (Vector2Subtract (collidePair sqrt bi bj).2.pos (collidePair sqrt bi bj).1.pos)
      = abs (pairRadiiSum bi bj) ∧
    (0 ≤ pairRadiiSum bi bj →
      Vector2Length sqrt
          (Vector2Subtract (collidePair sqrt bi bj).2.pos (collidePair sqrt bi bj).1.pos)
        = bi.radiusVisual + bj.radiusVisual ∧
      Vector2Length sqrt (Vector2Subtract bi.pos (collidePair sqrt bi bj).1.pos)
        = (pairRadiiSum bi bj - pairDist sqrt bi bj) / 2 ∧
      Vector2Length sqrt (Vector2Subtract (collidePair sqrt bi bj).2.pos bj.pos)
        = (pairRadiiSum bi bj - pairDist sqrt bi bj) / 2) ∧
    Vector2Add (collidePair sqrt bi bj).1.pos (collidePair sqrt bi bj).2.pos
      = Vector2Add bi.pos bj.pos ∧
    Vector2Subtract bi.pos (collidePair sqrt bi bj).1.pos
      = Vector2Scale (pairNormal sqrt bi bj) ((pairRadiiSum bi bj - pairDist sqrt bi bj) / 2) ∧
    Vector2Subtract (collidePair sqrt bi bj).2.pos bj.pos
      = Vector2Scale (pairNormal sqrt bi bj) ((pairRadiiSum bi bj - pairDist sqrt bi bj) / 2) ∧
    Vector2Scale (pairNormal sqrt bi bj) (pairDist sqrt bi bj)
      = Vector2Subtract bj.pos bi.pos := by
  obtain ⟨h1, h2⟩ := collidePair_pos sqrt bi bj hov
  have hline : Vector2Scale (pairNormal sqrt bi bj) (pairDist sqrt bi bj)
      = Vector2Subtract bj.pos bi.pos :=
    normalOf_scale_dist (pairDistanceVec bi bj) (pairDist sqrt bi bj) hd
  have hlx := congrArg Vector2.x hline
  have hly := congrArg Vector2.y hline
  unfold Vector2Scale Vector2Subtract at hlx hly
  dsimp only at hlx hly
  have hmi : Vector2Subtract bi.pos (collidePair sqrt bi bj).1.pos
      = Vector2Scale (pairNormal sqrt bi bj)
          ((pairRadiiSum bi bj - pairDist sqrt bi bj) / 2) := by
    rw [h1]
    unfold Vector2Subtract Vector2Scale
    rw [Vector2.mk.injEq]
    constructor <;> ring
  have hmj : Vector2Subtract (collidePair sqrt bi bj).2.pos bj.pos
      = Vector2Scale (pairNormal sqrt bi bj)
          ((pairRadiiSum bi bj - pairDist sqrt bi bj) / 2) := by
    rw [h2]
    unfold Vector2Subtract Vector2Add Vector2Scale
    rw [Vector2.mk.injEq]
    constructor <;> ring
  have hnew : Vector2Subtract (collidePair sqrt bi bj).2.pos (collidePair sqrt bi bj).1.pos
      = Vector2Scale (pairNormal sqrt bi bj) (pairRadiiSum bi bj) := by
    rw [h1, h2]
    unfold Vector2Subtract Vector2Add Vector2Scale
    rw [Vector2.mk.injEq]
    constructor
    · linear_combination -hlx
    · linear_combination -hly
  have hlen : ∀ c : K, Vector2Length sqrt (Vector2Scale (pairNormal sqrt bi bj) c) = abs c :=
    fun c => length_scale_normalOf sqrt hs (pairDistanceVec bi bj) c
  have hdist0 : 0 ≤ pairDist sqrt bi bj := le_of_lt (lt_trans (by norm_num) hd)
  refine ⟨by rw [hnew, hlen], ?_, ?_, hmi, hmj, hline⟩
  · intro hsum
    have hle : pairDist sqrt bi bj ≤ pairRadiiSum bi bj := by
      by_contra hcon
      have hlt := not_le.mp hcon
      have := mul_self_le_mul_self hsum (le_of_lt hlt)
      linarith
    have hov0 : 0 ≤ (pairRadiiSum bi bj - pairDist sqrt bi bj) / 2 := by linarith
    refine ⟨?_, ?_, ?_⟩
    · rw [hnew, hlen, abs_of_nonneg hsum]
      rfl
    · rw [hmi, hlen, abs_of_nonneg hov0]
    · rw [hmj, hlen, abs_of_nonneg hov0]
  · rw [h1, h2]
    unfold Vector2Subtract Vector2Add Vector2Scale
    rw [Vector2.mk.injEq]
    constructor <;> ring

/-- Witness for C20: radii `10` and `10`, centres `(0,0)` and `(16,0)`, masses `1` and `3`: the
centres move to `(-2, 0)` and `(18, 0)`, at distance `20`. -/
theorem collidePair_touching_witness :
    Vector2Length Real.sqrt
      (Vector2Subtract (collidePair Real.sqrt (heavyPairA : Ball ℝ) heavyPairB).2.pos
        (collidePair Real.sqrt (heavyPairA : Ball ℝ) heavyPairB).1.pos) = 20 ∧
    (collidePair Real.sqrt (heavyPairA : Ball ℝ) heavyPairB).1.pos = ⟨-2, 0⟩ ∧
    (collidePair Real.sqrt (heavyPairA : Ball ℝ) heavyPairB).2.pos = ⟨18, 0⟩ := by
  have hov : pairDist Real.sqrt (heavyPairA : Ball ℝ) heavyPairB
      * pairDist Real.sqrt (heavyPairA : Ball ℝ) heavyPairB
      < pairRadiiSum (heavyPairA : Ball ℝ) heavyPairB
        * pairRadiiSum (heavyPairA : Ball ℝ) heavyPairB := by
    rw [heavyPair_dist]
    norm_num [pairRadiiSum, heavyPairA, heavyPairB, Ball.new]
  have h := collidePair_touching Real.sqrt isSqrt_real (heavyPairA : Ball ℝ) heavyPairB
    (by rw [heavyPair_dist]; norm_num) hov
  obtain ⟨p1, p2⟩ := collidePair_pos Real.sqrt (heavyPairA : Ball ℝ) heavyPairB hov
  rw [heavyPair_dist, heavyPair_normal] at p1 p2
  refine ⟨?_, ?_, ?_⟩
  · rw [(h.2.1 (by norm_num [pairRadiiSum, heavyPairA, heavyPairB, Ball.new])).1]
    norm_num [heavyPairA, heavyPairB, Ball.new]
  · rw [p1]
    norm_num [Vector2Subtract, Vector2Scale, pairRadiiSum, heavyPairA, heavyPairB, Ball.new]
  · rw [p2]
    norm_num [Vector2Add, Vector2Scale, pairRadiiSum, heavyPairA, heavyPairB, Ball.new]

/-! ## Pairs that do not overlap, with the binary32 product of the overlap test -/

/-- With the identity in the place of the rounding the loop body is `collidePair`. -/
theorem collidePairF32_id (sqrt : K → K) (bi bj : Ball K) :
    collidePairF32 (fun x => x) sqrt bi bj = collidePair sqrt bi bj := rfl

/-- With the identity in the place of the rounding the pass is `ballsCollision`. -/
theorem ballsCollisionF32_id (sqrt : K → K) (s : BallSys K) :
    s.ballsCollisionF32 (fun x => x) sqrt = s.ballsCollision sqrt := rfl

end Theorems

end BallsSim
